import Mathlib

/-!
# Hero3D animation engine (`src/js/hero-3d.js`)

A shallow embedding of the `Hero3D` class: particle generation, the particle
vertex shader, the connection recomputation, the event listeners, the
per-frame `animate` tick, `destroy` and the page-load handler.

Conventions of the embedding.

* JavaScript numbers and GLSL floats are modelled as real numbers (`ℝ`), so
  `Math.sin`, `Math.cos`, `Math.acos`, `Math.sqrt` are `Real.sin`, `Real.cos`,
  `Real.arccos`, `Real.sqrt`; rounding (including the `Float32Array` store) is
  not modelled.  Definitions that branch on a comparison of reals or call an
  analytic function cannot be compiled and are marked `noncomputable`; they are
  evaluated in proofs by rewriting.
* `Math.random()` is a stream of draws `rand : ℕ → ℝ`; the k-th call of a
  construction step returns `rand k`.
* Calls into the host (`requestAnimationFrame`, `renderer.render`,
  `renderer.dispose`) are recorded as counters in the state.
* Division is division of reals, and statements about a quotient assume its
  divisor nonzero.  The camera aspect, whose divisor the resize handler does
  not control, is kept as `finiteQuotient`: `none` when JavaScript would
  produce `Infinity` or `NaN`.
-/

namespace Hero3D

/-! ## Vectors -/

/-- A `vec3` / `THREE.Vector3`. -/
structure Vec3 where
  x : ℝ
  y : ℝ
  z : ℝ

namespace Vec3

/-- GLSL `length(v)`. -/
noncomputable def length (v : Vec3) : ℝ :=
  Real.sqrt (v.x ^ 2 + v.y ^ 2 + v.z ^ 2)

/-- Componentwise `v + w`. -/
def add (v w : Vec3) : Vec3 := ⟨v.x + w.x, v.y + w.y, v.z + w.z⟩

/-- GLSL `v * s` for a scalar `s`. -/
def scale (v : Vec3) (s : ℝ) : Vec3 := ⟨v.x * s, v.y * s, v.z * s⟩

/-- GLSL `normalize(v)`: `v / length(v)` (division by zero is `0` in `ℝ`; GLSL
leaves `normalize` of the zero vector undefined). -/
noncomputable def normalize (v : Vec3) : Vec3 :=
  ⟨v.x / v.length, v.y / v.length, v.z / v.length⟩

end Vec3

/-! ## `createParticleSystem`: particle generation (lines 61-101) -/

/-- Source: `const particleCount = 2000;` -/
def particleCount : ℕ := 2000

/-- Source: `const phi = Math.acos(-1 + (2 * i) / particleCount);` -/
noncomputable def phi (i : ℕ) : ℝ :=
  Real.arccos (-1 + (2 * (i : ℝ)) / (particleCount : ℝ))

/-- Source: `const theta = Math.sqrt(particleCount * Math.PI) * phi;` -/
noncomputable def theta (i : ℕ) : ℝ :=
  Real.sqrt ((particleCount : ℝ) * Real.pi) * phi i

/-- Source: `const radius = 8 + Math.random() * 2;` for the draw `u`. -/
def particleRadius (u : ℝ) : ℝ := 8 + u * 2

/-- The position written for particle `i` when the radius draw is `u`
(lines 72-82): `x`, `y`, `z` as stored at `positions[3i]`, `[3i+1]`, `[3i+2]`. -/
noncomputable def particlePosition (i : ℕ) (u : ℝ) : Vec3 :=
  let radius := particleRadius u
  { x := radius * Real.cos (theta i) * Real.sin (phi i)
    y := radius * Real.sin (theta i) * Real.sin (phi i)
    z := radius * Real.cos (phi i) }

/-- The colour written for a particle when the colour draw is `t` (lines 85-88). -/
def particleColor (t : ℝ) : Vec3 :=
  { x := t * 0.486 + (1 - t) * 0
    y := t * 0.227 + (1 - t) * 0.831
    z := t * 0.929 + (1 - t) * 1 }

/-- Source: `sizes[i] = Math.random() * 3 + 1;` for the draw `u`. -/
def particleSize (u : ℝ) : ℝ := u * 3 + 1

/-- Number of `Math.random()` calls in one iteration of the particle loop:
radius, colour, size and the three velocity components. -/
def drawsPerParticle : ℕ := 6

/-- The `positions` array (a flat `Float32Array` of `3 * particleCount`
entries) after the loop of lines 70-101; iteration `i` takes its radius from
draw `6 * i`. -/
noncomputable def particlePositions (rand : ℕ → ℝ) : List ℝ :=
  (List.range particleCount).flatMap fun i =>
    let p := particlePosition i (rand (drawsPerParticle * i))
    [p.x, p.y, p.z]

/-- The `colors` array after the loop; iteration `i` takes `t` from draw
`6 * i + 1`. -/
def particleColors (rand : ℕ → ℝ) : List ℝ :=
  (List.range particleCount).flatMap fun i =>
    let c := particleColor (rand (drawsPerParticle * i + 1))
    [c.x, c.y, c.z]

/-- The `sizes` array after the loop; iteration `i` takes draw `6 * i + 2`. -/
def particleSizes (rand : ℕ → ℝ) : List ℝ :=
  (List.range particleCount).map fun i => particleSize (rand (drawsPerParticle * i + 2))

/-- Reading particle `i` out of a flat position buffer: the triple at
`[3i]`, `[3i+1]`, `[3i+2]`, when all three are in range. -/
def readVec3 (positions : List ℝ) (i : ℕ) : Option Vec3 :=
  match positions[i * 3]?, positions[i * 3 + 1]?, positions[i * 3 + 2]? with
  | some x, some y, some z => some ⟨x, y, z⟩
  | _, _, _ => none

/-! ## The particle vertex shader (lines 127-153) -/

/-- GLSL `clamp(x, lo, hi)`: `min(max(x, lo), hi)`. -/
noncomputable def clamp (x lo hi : ℝ) : ℝ := min (max x lo) hi

/-- GLSL `smoothstep(edge0, edge1, x)`: `t * t * (3 - 2 t)` with
`t = clamp((x - edge0) / (edge1 - edge0), 0, 1)`. -/
noncomputable def smoothstep (edge0 edge1 x : ℝ) : ℝ :=
  let t := clamp ((x - edge0) / (edge1 - edge0)) 0 1
  t * t * (3 - 2 * t)

/-- Source: `float wave = sin(pos.x * 0.5 + time) * cos(pos.y * 0.5 + time) * 0.5;` -/
noncomputable def wave (pos : Vec3) (time : ℝ) : ℝ :=
  Real.sin (pos.x * 0.5 + time) * Real.cos (pos.y * 0.5 + time) * 0.5

/-- Lines 133-134: `pos += normalize(pos) * wave;`. -/
noncomputable def waveStep (pos : Vec3) (time : ℝ) : Vec3 :=
  pos.add (pos.normalize.scale (wave pos time))

/-- Source: `float mouseInfluence = 2.0;` -/
def mouseInfluence : ℝ := 2

/-- Line 138: `pos.x += mouseX * mouseInfluence * (1.0 - length(pos) / 15.0);`. -/
noncomputable def mouseStepX (pos : Vec3) (mouseX : ℝ) : Vec3 :=
  { pos with x := pos.x + mouseX * mouseInfluence * (1 - pos.length / 15) }

/-- Line 139: `pos.y += mouseY * mouseInfluence * (1.0 - length(pos) / 15.0);`. -/
noncomputable def mouseStepY (pos : Vec3) (mouseY : ℝ) : Vec3 :=
  { pos with y := pos.y + mouseY * mouseInfluence * (1 - pos.length / 15) }

/-- Lines 136-139: the two assignments in program order; the second reads the
`pos` the first has written. -/
noncomputable def mouseStep (pos : Vec3) (mouseX mouseY : ℝ) : Vec3 :=
  mouseStepY (mouseStepX pos mouseX) mouseY

/-- Source: `float breath = sin(time * 0.5) * 0.3 + 1.0;` -/
noncomputable def breath (time : ℝ) : ℝ := Real.sin (time * 0.5) * 0.3 + 1

/-- The displaced position `pos` of the vertex shader just before the
model-view transform (lines 130-143). -/
noncomputable def shaderPos (position : Vec3) (time mouseX mouseY : ℝ) : Vec3 :=
  (mouseStep (waveStep position time) mouseX mouseY).scale (breath time)

/-- The alpha `1.0 - smoothstep(5.0, 15.0, length(pos))` of a displaced position `pos`. -/
noncomputable def alphaOf (pos : Vec3) : ℝ := 1 - smoothstep 5 15 pos.length

/-- Line 152: `vAlpha`, from the vertex attribute and the three uniforms. -/
noncomputable def vAlpha (position : Vec3) (time mouseX mouseY : ℝ) : ℝ :=
  alphaOf (shaderPos position time mouseX mouseY)

/-! ## `updateConnections` (lines 200-233) -/

/-- Source: `const connectionDistance = 3;` -/
def connectionDistance : ℝ := 3

/-- Source: `const sampleRate = 10;` -/
def sampleRate : ℕ := 10

/-- Lines 217-221: `Math.sqrt(Math.pow(x2 - x1, 2) + ...)`. -/
noncomputable def dist (p1 p2 : Vec3) : ℝ :=
  Real.sqrt ((p2.x - p1.x) ^ 2 + (p2.y - p1.y) ^ 2 + (p2.z - p1.z) ^ 2)

/-- One pushed line segment: the sampled indices and the six coordinates
`x1, y1, z1, x2, y2, z2` pushed at line 224. -/
structure Segment where
  i : ℕ
  j : ℕ
  p1 : Vec3
  p2 : Vec3

/-- The body of the inner loop for the pair `(i, j)` (lines 213-225): a segment
is pushed when `dist < connectionDistance`.  A coordinate read out of range is
`undefined` in JavaScript, the distance is then `NaN` and the test fails. -/
noncomputable def segmentAt (positions : List ℝ) (i j : ℕ) : Option Segment :=
  match readVec3 positions i, readVec3 positions j with
  | some p1, some p2 => if dist p1 p2 < connectionDistance then some ⟨i, j, p1, p2⟩ else none
  | _, _ => none

/-- The inner loop `for (let j = ...; j < positions.length / 3; j += sampleRate)`,
entered at `j`. -/
noncomputable def innerLoop (positions : List ℝ) (i j : ℕ) : List Segment :=
  if (j : ℝ) < (positions.length : ℝ) / 3 then
    (segmentAt positions i j).toList ++ innerLoop positions i (j + sampleRate)
  else []
termination_by positions.length - j
decreasing_by
  rename_i h
  have h3 : (j : ℝ) < (positions.length : ℝ) := by
    have : (0 : ℝ) ≤ (positions.length : ℝ) := Nat.cast_nonneg _
    linarith
  have h4 : j < positions.length := by exact_mod_cast h3
  simp only [sampleRate]
  omega

/-- The outer loop `for (let i = 0; i < positions.length / 3; i += sampleRate)`,
entered at `i`; the inner loop starts at `j = i + sampleRate`. -/
noncomputable def outerLoop (positions : List ℝ) (i : ℕ) : List Segment :=
  if (i : ℝ) < (positions.length : ℝ) / 3 then
    innerLoop positions i (i + sampleRate) ++ outerLoop positions (i + sampleRate)
  else []
termination_by positions.length - i
decreasing_by
  rename_i h
  have h3 : (i : ℝ) < (positions.length : ℝ) := by
    have : (0 : ℝ) ≤ (positions.length : ℝ) := Nat.cast_nonneg _
    linarith
  have h4 : i < positions.length := by exact_mod_cast h3
  simp only [sampleRate]
  omega

/-- The segments pushed by one run of the two loops over `positions`, in push
order. -/
noncomputable def connectionSegments (positions : List ℝ) : List Segment :=
  outerLoop positions 0

/-- The index pairs of the pushed segments: the edge set. -/
noncomputable def connectionPairs (positions : List ℝ) : List (ℕ × ℕ) :=
  (connectionSegments positions).map fun s => (s.i, s.j)

/-- The array `linePositions` after the loops: six numbers per pushed segment. -/
noncomputable def linePositions (positions : List ℝ) : List ℝ :=
  (connectionSegments positions).flatMap fun s =>
    [s.p1.x, s.p1.y, s.p1.z, s.p2.x, s.p2.y, s.p2.z]

/-! ## The state of a `Hero3D` instance -/

/-- The part of `window` the class reads. -/
structure Window where
  innerWidth : ℝ
  innerHeight : ℝ
  devicePixelRatio : ℝ
  scrollY : ℝ

/-- The field `this.mouse`: smoothed pointer `(x, y)` and raw target. -/
structure Mouse where
  x : ℝ
  y : ℝ
  targetX : ℝ
  targetY : ℝ

/-- The uniforms `particleSystem.material.uniforms`. -/
structure ParticleUniforms where
  time : ℝ
  mouseX : ℝ
  mouseY : ℝ
  pixelRatio : ℝ

/-- The field `this.particleSystem`: the three attribute arrays, the shader uniforms, the
object rotation and `material.opacity`.  The constructor creates it before the
first tick, so the guards `if (this.particleSystem)` always pass. -/
structure ParticleSystem where
  positions : List ℝ
  colors : List ℝ
  sizes : List ℝ
  uniforms : ParticleUniforms
  rotation : Vec3
  opacity : ℝ

/-- The three geometries of `createFloatingShapes`. -/
inductive GeometryKind where
  | icosahedron
  | octahedron
  | tetrahedron
  deriving DecidableEq, Repr

/-- The record `mesh.userData` of a floating shape. -/
structure ShapeUserData where
  rotationSpeed : Vec3
  floatSpeed : ℝ
  floatOffset : ℝ
  originalY : ℝ
  parallaxFactor : ℝ

/-- One floating shape (a `THREE.Mesh`). -/
structure Shape where
  kind : GeometryKind
  color : ℕ
  position : Vec3
  rotation : Vec3
  userData : ShapeUserData

/-- The record `orb.userData`. -/
structure OrbUserData where
  originalPos : Vec3
  floatSpeed : ℝ
  floatRange : ℝ

/-- One glow orb: its colour and size, position, `time` uniform and user data. -/
structure Orb where
  color : ℕ
  size : ℝ
  position : Vec3
  timeUniform : ℝ
  userData : OrbUserData

/-- JavaScript `a / b` as far as the result is a finite number: for `b = 0`
the result is `Infinity`, `-Infinity` or `NaN`, rendered as `none`. -/
noncomputable def finiteQuotient (a b : ℝ) : Option ℝ :=
  if b = 0 then none else some (a / b)

/-- The fields of a `Hero3D` instance, with the host calls it has made.
`canvasAttached` says whether `renderer.domElement` is a child of
`container`; `frameRequests` counts `requestAnimationFrame` calls,
`renderCalls` counts `renderer.render` calls and `connectionUpdates` counts
the runs of `updateConnections`.  `cameraAspect` is `camera.aspect` when it is
a finite number. -/
structure State where
  mouse : Mouse
  time : ℝ
  particleSystem : ParticleSystem
  connectionLines : List ℝ
  floatingShapes : List Shape
  glowOrbs : List Orb
  pointLight1 : Vec3
  pointLight2 : Vec3
  cameraAspect : Option ℝ
  rendererWidth : ℝ
  rendererHeight : ℝ
  rendererPixelRatio : ℝ
  rendererDisposed : Bool
  canvasAttached : Bool
  frameRequests : ℕ
  renderCalls : ℕ
  connectionUpdates : ℕ

/-! ## `createFloatingShapes` (lines 235-285) and `createGlowOrbs` (lines 287-338) -/

/-- Number of `Math.random()` calls for one floating shape. -/
def drawsPerShape : ℕ := 13

/-- One iteration of the loop of lines 246-283, the first draw being `rand n`:
colour, position, rotation, rotation speed, float speed, float offset and
parallax factor, in call order. -/
noncomputable def mkShape (rand : ℕ → ℝ) (n : ℕ) (kind : GeometryKind) : Shape :=
  let position : Vec3 :=
    ⟨(rand (n + 1) - 0.5) * 60, (rand (n + 2) - 0.5) * 40, (rand (n + 3) - 0.5) * 20 - 10⟩
  { kind := kind
    color := if rand n > 0.5 then 0x00D4FF else 0x7C3AED
    position := position
    rotation := ⟨rand (n + 4) * Real.pi, rand (n + 5) * Real.pi, rand (n + 6) * Real.pi⟩
    userData :=
      { rotationSpeed :=
          ⟨(rand (n + 7) - 0.5) * 0.01, (rand (n + 8) - 0.5) * 0.01, (rand (n + 9) - 0.5) * 0.01⟩
        floatSpeed := rand (n + 10) * 0.5 + 0.5
        floatOffset := rand (n + 11) * Real.pi * 2
        originalY := position.y
        parallaxFactor := rand (n + 12) * 0.5 + 0.5 } }

/-- The loop `for (let i = 0; i < count; i++)` for one geometry, the first draw
being `rand n`. -/
noncomputable def spawnShapes (rand : ℕ → ℝ) (kind : GeometryKind) : ℕ → ℕ → List Shape
  | 0, _ => []
  | count + 1, n => mkShape rand n kind :: spawnShapes rand kind count (n + drawsPerShape)

/-- The list `this.floatingShapes` after `createFloatingShapes`, the first draw
being `rand n`: 5 icosahedra, 4 octahedra, 6 tetrahedra. -/
noncomputable def createFloatingShapes (rand : ℕ → ℝ) (n : ℕ) : List Shape :=
  spawnShapes rand GeometryKind.icosahedron 5 n
    ++ spawnShapes rand GeometryKind.octahedron 4 (n + drawsPerShape * 5)
    ++ spawnShapes rand GeometryKind.tetrahedron 6 (n + drawsPerShape * 9)

/-- One entry of `orbPositions`. -/
structure OrbSpec where
  pos : Vec3
  color : ℕ
  size : ℝ

/-- The array `orbPositions` (lines 291-295). -/
def orbPositions : List OrbSpec :=
  [ ⟨⟨-15, 10, -5⟩, 0x00D4FF, 3⟩,
    ⟨⟨18, -8, -8⟩, 0x7C3AED, 4⟩,
    ⟨⟨0, -15, -3⟩, 0x00D4FF, 2⟩ ]

/-- Number of `Math.random()` calls for one orb. -/
def drawsPerOrb : ℕ := 2

/-- One iteration of `orbPositions.forEach` (lines 297-337), the first draw
being `rand n`. -/
def mkOrb (rand : ℕ → ℝ) (n : ℕ) (o : OrbSpec) : Orb :=
  { color := o.color
    size := o.size
    position := o.pos
    timeUniform := 0
    userData :=
      { originalPos := o.pos
        floatSpeed := rand n * 0.3 + 0.2
        floatRange := rand (n + 1) * 2 + 1 } }

/-- The `forEach` over a list of anchors, the first draw being `rand n`. -/
def spawnOrbs (rand : ℕ → ℝ) : List OrbSpec → ℕ → List Orb
  | [], _ => []
  | o :: rest, n => mkOrb rand n o :: spawnOrbs rand rest (n + drawsPerOrb)

/-- The list `this.glowOrbs` after `createGlowOrbs`, the first draw being `rand n`. -/
def createGlowOrbs (rand : ℕ → ℝ) (n : ℕ) : List Orb :=
  spawnOrbs rand orbPositions n

/-! ## `updateConnections` on the instance, and `animate` (lines 386-444) -/

/-- The method `updateConnections()`: read `particleSystem.geometry.attributes.position.array`,
run the loops and set the result as the `position` attribute of
`connectionLines`. -/
noncomputable def updateConnections (s : State) : State :=
  { s with
    connectionLines := linePositions s.particleSystem.positions
    connectionUpdates := s.connectionUpdates + 1 }

/-- The body of `this.floatingShapes.forEach` in `animate` (lines 413-425). -/
noncomputable def animateShape (time mouseX : ℝ) (shape : Shape) : Shape :=
  let u := shape.userData
  { shape with
    rotation :=
      ⟨shape.rotation.x + u.rotationSpeed.x,
       shape.rotation.y + u.rotationSpeed.y,
       shape.rotation.z + u.rotationSpeed.z⟩
    position :=
      ⟨shape.position.x + mouseX * 0.01,
       u.originalY + Real.sin (time * u.floatSpeed + u.floatOffset) * 2,
       shape.position.z⟩ }

/-- The body of `this.glowOrbs.forEach` in `animate` (lines 428-434). -/
noncomputable def animateOrb (time : ℝ) (orb : Orb) : Orb :=
  let u := orb.userData
  { orb with
    timeUniform := time
    position :=
      ⟨u.originalPos.x + Real.cos (time * u.floatSpeed * 0.7) * u.floatRange * 0.5,
       u.originalPos.y + Real.sin (time * u.floatSpeed) * u.floatRange,
       orb.position.z⟩ }

/-- The test `Math.floor(this.time * 10) % 3 === 0` of line 408. -/
def recomputeDue (time : ℝ) : Prop := ⌊time * 10⌋ % 3 = 0

noncomputable instance recomputeDue.decidable (time : ℝ) : Decidable (recomputeDue time) :=
  inferInstanceAs (Decidable (⌊time * 10⌋ % 3 = 0))

/-- Lines 387-405 of `animate()`: request the next frame, advance the clock,
smooth the pointer, copy time and pointer into the particle uniforms and set the
particle system's rotation. -/
def animateHead (s : State) : State :=
  let time := s.time + 0.01
  let mouse : Mouse :=
    { s.mouse with
      x := s.mouse.x + (s.mouse.targetX - s.mouse.x) * 0.05
      y := s.mouse.y + (s.mouse.targetY - s.mouse.y) * 0.05 }
  let ps := s.particleSystem
  { s with
    frameRequests := s.frameRequests + 1
    time := time
    mouse := mouse
    particleSystem :=
      { ps with
        uniforms := { ps.uniforms with time := time, mouseX := mouse.x, mouseY := mouse.y }
        rotation := ⟨mouse.y * 0.2, ps.rotation.y + 0.002, mouse.x * 0.1⟩ } }

/-- Lines 412-443 of `animate()`: move shapes, orbs and lights, then render. -/
noncomputable def animateTail (s : State) : State :=
  { s with
    floatingShapes := s.floatingShapes.map (animateShape s.time s.mouse.x)
    glowOrbs := s.glowOrbs.map (animateOrb s.time)
    pointLight1 :=
      ⟨Real.sin (s.time * 0.5) * 25, Real.cos (s.time * 0.5) * 25, s.pointLight1.z⟩
    pointLight2 :=
      ⟨Real.cos (s.time * 0.3) * 25, Real.sin (s.time * 0.3) * 25, s.pointLight2.z⟩
    renderCalls := s.renderCalls + 1 }

/-- One call of `animate()`: the head, the connection recomputation when
`Math.floor(this.time * 10) % 3 === 0`, then the tail. -/
noncomputable def animate (s : State) : State :=
  let s1 := animateHead s
  let s2 := if recomputeDue s1.time then updateConnections s1 else s1
  animateTail s2

/-! ## The constructor and `init` (lines 7-59) -/

/-- The instance as the constructor leaves it just before its call of
`this.animate()`: `init`, `createParticleSystem`, `createFloatingShapes`,
`createGlowOrbs`, drawing from `rand` in that order. -/
noncomputable def constructed (rand : ℕ → ℝ) (w : Window) : State :=
  { mouse := ⟨0, 0, 0, 0⟩
    time := 0
    particleSystem :=
      { positions := particlePositions rand
        colors := particleColors rand
        sizes := particleSizes rand
        uniforms := ⟨0, 0, 0, min w.devicePixelRatio 2⟩
        rotation := ⟨0, 0, 0⟩
        opacity := 1 }
    connectionLines := []
    floatingShapes := createFloatingShapes rand (drawsPerParticle * particleCount)
    glowOrbs :=
      createGlowOrbs rand (drawsPerParticle * particleCount + drawsPerShape * 15)
    pointLight1 := ⟨20, 20, 20⟩
    pointLight2 := ⟨-20, -20, 20⟩
    cameraAspect := finiteQuotient w.innerWidth w.innerHeight
    rendererWidth := w.innerWidth
    rendererHeight := w.innerHeight
    rendererPixelRatio := min w.devicePixelRatio 2
    rendererDisposed := false
    canvasAttached := true
    frameRequests := 0
    renderCalls := 0
    connectionUpdates := 0 }

/-- The call `new Hero3D(container)`: the constructor ends with the first `animate()`. -/
noncomputable def create (rand : ℕ → ℝ) (w : Window) : State :=
  animate (constructed rand w)

/-- A number of consecutive frame callbacks. -/
noncomputable def ticks : ℕ → State → State
  | 0, s => s
  | n + 1, s => animate (ticks n s)

/-! ## `destroy` (lines 446-450) -/

/-- The exception a DOM call can raise here. -/
inductive DOMException where
  | notFoundError
  deriving DecidableEq, Repr

/-- First statement of `destroy()`: `this.renderer.dispose();`. -/
def disposeRenderer (s : State) : State := { s with rendererDisposed := true }

/-- Second statement of `destroy()`:
`this.container.removeChild(this.renderer.domElement);`.  The DOM raises
`NotFoundError` when the node is not a child of the container. -/
def removeCanvas (s : State) : Except DOMException State :=
  if s.canvasAttached then Except.ok { s with canvasAttached := false }
  else Except.error DOMException.notFoundError

/-- The method `destroy()`: the two statements in order. -/
def destroy (s : State) : Except DOMException State :=
  removeCanvas (disposeRenderer s)

/-! ## The iterations of the two loops of `updateConnections` -/

/-- The values the loop variable takes in the body of a loop
`for (let j = start; j < len / 3; j += stride)`, in order.  Both loops of
`updateConnections` have this header, with `len = positions.length` and
`stride = sampleRate`; a stride of `0` would not terminate, so the stride comes
with a proof that it is positive. -/
noncomputable def loopVisits (stride : ℕ) (hs : 0 < stride) (len : ℕ) (start : ℕ) : List ℕ :=
  if (start : ℝ) < (len : ℝ) / 3 then start :: loopVisits stride hs len (start + stride)
  else []
termination_by len - start
decreasing_by
  rename_i h
  have h3 : (start : ℝ) < (len : ℝ) := by
    have : (0 : ℝ) ≤ (len : ℝ) := Nat.cast_nonneg _
    linarith
  have h4 : start < len := by exact_mod_cast h3
  omega

/-- The pairs `(i, j)` for which the body of the inner loop runs, that is the
distance checks, in order, the outer loop being entered at `i`. -/
noncomputable def checkedPairs (stride : ℕ) (hs : 0 < stride) (len : ℕ) (i : ℕ) :
    List (ℕ × ℕ) :=
  if (i : ℝ) < (len : ℝ) / 3 then
    (loopVisits stride hs len (i + stride)).map (fun j => (i, j))
      ++ checkedPairs stride hs len (i + stride)
  else []
termination_by len - i
decreasing_by
  rename_i h
  have h3 : (i : ℝ) < (len : ℝ) := by
    have : (0 : ℝ) ≤ (len : ℝ) := Nat.cast_nonneg _
    linarith
  have h4 : i < len := by exact_mod_cast h3
  omega

/-! ## `bindEvents`, `onResize`, `onScroll` (lines 340-384) -/

/-- The `mousemove` listener (lines 342-345) for an event at
`(clientX, clientY)`, in the window `w`. -/
noncomputable def onMouseMove (w : Window) (clientX clientY : ℝ) (s : State) : State :=
  { s with
    mouse :=
      { s.mouse with
        targetX := clientX / w.innerWidth * 2 - 1
        targetY := -(clientY / w.innerHeight) * 2 + 1 } }

/-- One entry of `e.touches`. -/
structure Touch where
  clientX : ℝ
  clientY : ℝ

/-- The `touchmove` listener (lines 348-353): with a non-empty touch list the
first touch sets the target, with an empty one nothing happens. -/
noncomputable def onTouchMove (w : Window) (touches : List Touch) (s : State) : State :=
  match touches with
  | [] => s
  | t :: _ =>
    { s with
      mouse :=
        { s.mouse with
          targetX := t.clientX / w.innerWidth * 2 - 1
          targetY := -(t.clientY / w.innerHeight) * 2 + 1 } }

/-- The method `onResize()` (lines 362-367). -/
noncomputable def onResize (w : Window) (s : State) : State :=
  { s with
    cameraAspect := finiteQuotient w.innerWidth w.innerHeight
    rendererWidth := w.innerWidth
    rendererHeight := w.innerHeight
    particleSystem :=
      { s.particleSystem with
        uniforms := { s.particleSystem.uniforms with pixelRatio := min w.devicePixelRatio 2 } } }

/-- The body of `this.floatingShapes.forEach` in `onScroll` (lines 374-377). -/
def scrollShape (scrollY : ℝ) (shape : Shape) : Shape :=
  let factor := shape.userData.parallaxFactor
  { shape with
    position :=
      { shape.position with y := shape.userData.originalY - scrollY * factor * 0.05 } }

/-- The opacity computed at line 381: `Math.max(0, 1 - scrollY / maxScroll)`. -/
noncomputable def scrollOpacity (scrollY maxScroll : ℝ) : ℝ :=
  max 0 (1 - scrollY / maxScroll)

/-- The method `onScroll()` (lines 369-384), with `scrollY = window.scrollY` and
`maxScroll = window.innerHeight`. -/
noncomputable def onScroll (w : Window) (s : State) : State :=
  let scrollY := w.scrollY
  let maxScroll := w.innerHeight
  { s with
    floatingShapes := s.floatingShapes.map (scrollShape scrollY)
    particleSystem := { s.particleSystem with opacity := scrollOpacity scrollY maxScroll } }

/-- The events the listeners of `bindEvents` are registered for. -/
inductive Event where
  | mousemove (clientX clientY : ℝ)
  | touchmove (touches : List Touch)
  | resize
  | scroll

/-- Dispatch of one event to its listener; `w` is the `window` as the listener
reads it. -/
noncomputable def handle (s : State) : Window × Event → State
  | (w, Event.mousemove x y) => onMouseMove w x y s
  | (w, Event.touchmove touches) => onTouchMove w touches s
  | (w, Event.resize) => onResize w s
  | (w, Event.scroll) => onScroll w s

/-- One frame: the events that arrived since the last frame callback, in order,
then the callback `animate()`. -/
noncomputable def frame (s : State) (events : List (Window × Event)) : State :=
  animate (events.foldl handle s)

/-- A run of consecutive frames, one list of events per frame. -/
noncomputable def run (s : State) : List (List (Window × Event)) → State
  | [] => s
  | events :: rest => run (frame s events) rest

/-! ## The `DOMContentLoaded` handler (lines 671-680) -/

/-- The host element `#hero-3d-container`. -/
inductive Element where
  | heroContainer
  deriving DecidableEq, Repr

/-- The exception of `new Hero3D(null)`: `init` has built the scene, the camera
and the renderer when `this.container.appendChild` raises `TypeError`. -/
inductive ConstructorError where
  | typeError
  deriving DecidableEq, Repr

/-- The call `new Hero3D(container)` for a `container` that may be `null`. -/
noncomputable def newHero3D (container : Option Element) (rand : ℕ → ℝ) (w : Window) :
    Except ConstructorError State :=
  match container with
  | none => Except.error ConstructorError.typeError
  | some _ => Except.ok (create rand w)

/-- The `DOMContentLoaded` handler, `container` being the result of
`document.getElementById('hero-3d-container')`: the value of `window.hero3D`
afterwards (`none` when it was not assigned), or the exception raised. -/
noncomputable def onDOMContentLoaded (container : Option Element) (rand : ℕ → ℝ)
    (w : Window) : Except ConstructorError (Option State) :=
  match container with
  | some c => (newHero3D (some c) rand w).map some
  | none => Except.ok none

/-! ## The animated state -/

/-- The part of the instance that the ticks animate: clock and pointer, the
particle field's uniforms, rotation and opacity, the floating shapes, the glow
orbs and the two lights. -/
structure Animated where
  time : ℝ
  mouse : Mouse
  uniforms : ParticleUniforms
  rotation : Vec3
  opacity : ℝ
  floatingShapes : List Shape
  glowOrbs : List Orb
  pointLight1 : Vec3
  pointLight2 : Vec3

/-- The animated part of a state. -/
def animated (s : State) : Animated :=
  { time := s.time
    mouse := s.mouse
    uniforms := s.particleSystem.uniforms
    rotation := s.particleSystem.rotation
    opacity := s.particleSystem.opacity
    floatingShapes := s.floatingShapes
    glowOrbs := s.glowOrbs
    pointLight1 := s.pointLight1
    pointLight2 := s.pointLight2 }

/-! ## The raw pointer targets a run sees -/

/-- The raw pointer target `(targetX, targetY)` that each frame callback of a
run finds, in order: the target as the events of that frame have left it. -/
noncomputable def targetsSeen (s : State) : List (List (Window × Event)) → List (ℝ × ℝ)
  | [] => []
  | events :: rest =>
    ((events.foldl handle s).mouse.targetX, (events.foldl handle s).mouse.targetY)
      :: targetsSeen (frame s events) rest

/-! ## Example inputs -/

/-- A 1920 x 1080 window at device pixel ratio 1, not scrolled. -/
def exampleWindow : Window := ⟨1920, 1080, 1, 0⟩

/-- The instance built by `new Hero3D(container)` in `exampleWindow` when every
`Math.random()` call returns `1/2`. -/
noncomputable def exampleScene : State := create (fun _ => 1 / 2) exampleWindow

/-- The instance `exampleScene` with the renderer disposed and the canvas
detached. -/
noncomputable def exampleDestroyed : State :=
  { exampleScene with rendererDisposed := true, canvasAttached := false }

/-- A position buffer of 11 particles: particle 0 at `(0, 0, 9)`, particle 10 at
`(0, 2.5, 9)`, the nine particles in between at the origin. -/
def examplePositions : List ℝ :=
  [0, 0, 9] ++ List.replicate 27 0 ++ [0, 2.5, 9]

/-- The instance `exampleScene` with `examplePositions` as position attribute,
clock and `time` uniform at `t`, pointer at rest. -/
noncomputable def exampleSceneAt (t : ℝ) : State :=
  { exampleScene with
    time := t
    mouse := ⟨0, 0, 0, 0⟩
    particleSystem :=
      { exampleScene.particleSystem with
        positions := examplePositions
        uniforms := { exampleScene.particleSystem.uniforms with time := t, mouseX := 0, mouseY := 0 } } }

/-! # Theorems -/

/-! ## Reading the generated position buffer -/

theorem length_flatMap_triple (f : ℕ → Vec3) (n : ℕ) :
    ((List.range n).flatMap fun k => [(f k).x, (f k).y, (f k).z]).length = n * 3 := by
  induction n with
  | zero => simp
  | succ n ih =>
    rw [List.range_succ, List.flatMap_append, List.length_append, ih]
    simp
    ring

theorem readVec3_flatMap_triple (f : ℕ → Vec3) (n i : ℕ) (h : i < n) :
    readVec3 ((List.range n).flatMap fun k => [(f k).x, (f k).y, (f k).z]) i = some (f i) := by
  induction n with
  | zero => omega
  | succ n ih =>
    have hlen := length_flatMap_triple f n
    rw [List.range_succ, List.flatMap_append]
    by_cases hin : i < n
    · have h' := ih hin
      unfold readVec3 at h' ⊢
      rw [List.getElem?_append_left (by omega), List.getElem?_append_left (by omega),
        List.getElem?_append_left (by omega)]
      exact h'
    · have hi : i = n := by omega
      subst hi
      unfold readVec3
      rw [List.getElem?_append_right (by omega), List.getElem?_append_right (by omega),
        List.getElem?_append_right (by omega), hlen]
      simp

theorem readVec3_particlePositions (rand : ℕ → ℝ) (i : ℕ) (h : i < particleCount) :
    readVec3 (particlePositions rand) i
      = some (particlePosition i (rand (drawsPerParticle * i))) :=
  readVec3_flatMap_triple (fun k => particlePosition k (rand (drawsPerParticle * k))) _ i h

/-! ## Particle generation -/

theorem length_particlePosition (i : ℕ) (u : ℝ) (hu : 0 ≤ u) :
    (particlePosition i u).length = 8 + 2 * u := by
  have hr : (0 : ℝ) ≤ 8 + u * 2 := by linarith
  have key : (particlePosition i u).x ^ 2 + (particlePosition i u).y ^ 2
      + (particlePosition i u).z ^ 2 = (8 + u * 2) ^ 2 := by
    simp only [particlePosition, particleRadius]
    have h1 := Real.sin_sq_add_cos_sq (theta i)
    have h2 := Real.sin_sq_add_cos_sq (phi i)
    have e : ((8 + u * 2) * Real.cos (theta i) * Real.sin (phi i)) ^ 2
        + ((8 + u * 2) * Real.sin (theta i) * Real.sin (phi i)) ^ 2
        + ((8 + u * 2) * Real.cos (phi i)) ^ 2
        = (8 + u * 2) ^ 2 * ((Real.sin (theta i) ^ 2 + Real.cos (theta i) ^ 2)
            * Real.sin (phi i) ^ 2 + Real.cos (phi i) ^ 2) := by ring
    rw [e, h1, one_mul, h2, mul_one]
  unfold Vec3.length
  rw [key, Real.sqrt_sq hr]
  ring

/-- C1: for every particle index `i < particleCount` and every jitter draw
`u ∈ [0, 1)`, the base position that `createParticleSystem` stores for particle
`i` (read back from the generated buffer whenever the radius draw of iteration
`i` is `u`) has Euclidean norm exactly `8 + 2u`, hence a norm in `[8, 10]`. -/
theorem basePosition_norm (i : ℕ) (u : ℝ) (hi : i < particleCount) (h0 : 0 ≤ u) (h1 : u < 1) :
    (∀ rand : ℕ → ℝ, rand (drawsPerParticle * i) = u →
        readVec3 (particlePositions rand) i = some (particlePosition i u))
      ∧ (particlePosition i u).length = 8 + 2 * u
      ∧ 8 ≤ (particlePosition i u).length
      ∧ (particlePosition i u).length ≤ 10 := by
  have hl := length_particlePosition i u h0
  refine ⟨?_, hl, ?_, ?_⟩
  · intro rand hr
    rw [readVec3_particlePositions rand i hi, hr]
  · rw [hl]; linarith
  · rw [hl]; linarith

theorem basePosition_norm_witness :
    (particlePosition 7 (1 / 2)).length = 8 + 2 * (1 / 2)
      ∧ 8 ≤ (particlePosition 7 (1 / 2)).length
      ∧ (particlePosition 7 (1 / 2)).length ≤ 10 :=
  (basePosition_norm 7 (1 / 2) (by decide) (by norm_num) (by norm_num)).2

/-- C9: for every index `i < particleCount` and jitter draw `u`, the buffer
written by `createParticleSystem` holds for particle `i` the point
`r * (cos θ * sin φ, sin θ * sin φ, cos φ)` with `φ = acos(-1 + 2i/count)`,
`θ = sqrt(count * π) * φ` and `r = 8 + 2u`. -/
theorem particle_placement (rand : ℕ → ℝ) (i : ℕ) (u : ℝ) (hi : i < particleCount)
    (hu : rand (drawsPerParticle * i) = u) :
    readVec3 (particlePositions rand) i = some
      { x := (8 + 2 * u) *
          (Real.cos (Real.sqrt ((particleCount : ℝ) * Real.pi) *
              Real.arccos (-1 + 2 * (i : ℝ) / (particleCount : ℝ)))
            * Real.sin (Real.arccos (-1 + 2 * (i : ℝ) / (particleCount : ℝ))))
        y := (8 + 2 * u) *
          (Real.sin (Real.sqrt ((particleCount : ℝ) * Real.pi) *
              Real.arccos (-1 + 2 * (i : ℝ) / (particleCount : ℝ)))
            * Real.sin (Real.arccos (-1 + 2 * (i : ℝ) / (particleCount : ℝ))))
        z := (8 + 2 * u) * Real.cos (Real.arccos (-1 + 2 * (i : ℝ) / (particleCount : ℝ))) } := by
  rw [readVec3_particlePositions rand i hi, hu]
  simp only [particlePosition, particleRadius, theta, phi]
  congr 2 <;> ring

theorem particle_placement_witness :
    readVec3 (particlePositions fun _ => 0) 3 = some
      { x := (8 + 2 * 0) *
          (Real.cos (Real.sqrt ((particleCount : ℝ) * Real.pi) *
              Real.arccos (-1 + 2 * ((3 : ℕ) : ℝ) / (particleCount : ℝ)))
            * Real.sin (Real.arccos (-1 + 2 * ((3 : ℕ) : ℝ) / (particleCount : ℝ))))
        y := (8 + 2 * 0) *
          (Real.sin (Real.sqrt ((particleCount : ℝ) * Real.pi) *
              Real.arccos (-1 + 2 * ((3 : ℕ) : ℝ) / (particleCount : ℝ)))
            * Real.sin (Real.arccos (-1 + 2 * ((3 : ℕ) : ℝ) / (particleCount : ℝ))))
        z := (8 + 2 * 0) *
          Real.cos (Real.arccos (-1 + 2 * ((3 : ℕ) : ℝ) / (particleCount : ℝ))) } :=
  particle_placement (fun _ => 0) 3 0 (by decide) rfl

/-! ## The azimuth step of the particle spiral -/

theorem phi_arg_mem (i : ℕ) (h : i ≤ particleCount) :
    -1 + (2 * (i : ℝ)) / (particleCount : ℝ) ∈ Set.Icc (-1 : ℝ) 1 := by
  have hc : ((i : ℝ)) ≤ 2000 := by
    have : (i : ℝ) ≤ ((particleCount : ℕ) : ℝ) := by exact_mod_cast h
    simpa [particleCount] using this
  have h0 : (0 : ℝ) ≤ (i : ℝ) := Nat.cast_nonneg i
  simp only [particleCount, Set.mem_Icc, Nat.cast_ofNat]
  constructor
  · have : (0 : ℝ) ≤ 2 * (i : ℝ) / 2000 := by positivity
    linarith
  · have : 2 * (i : ℝ) / 2000 ≤ 2 := by
      rw [div_le_iff₀ (by norm_num)]
      linarith
    linarith

theorem phi_succ_lt (i : ℕ) (h : i + 1 < particleCount) : phi (i + 1) < phi i := by
  unfold phi
  apply Real.strictAntiOn_arccos (phi_arg_mem i (by omega)) (phi_arg_mem (i + 1) (by omega))
  have : ((i : ℝ)) < ((i + 1 : ℕ) : ℝ) := by exact_mod_cast Nat.lt_succ_self i
  have hpos : (0 : ℝ) < (particleCount : ℝ) := by simp [particleCount]
  have : 2 * (i : ℝ) / (particleCount : ℝ) < 2 * ((i + 1 : ℕ) : ℝ) / (particleCount : ℝ) := by
    apply div_lt_div_of_pos_right _ hpos
    linarith
  linarith

theorem sqrt_count_pi_pos : 0 < Real.sqrt ((particleCount : ℝ) * Real.pi) := by
  apply Real.sqrt_pos.mpr
  have : (0 : ℝ) < (particleCount : ℝ) := by simp [particleCount]
  exact mul_pos this Real.pi_pos

theorem theta_step_not_constant : theta 1 - theta 0 ≠ theta 2 - theta 1 := by
  intro h
  have hc := sqrt_count_pi_pos
  have e : Real.sqrt ((particleCount : ℝ) * Real.pi) * (phi 1 - phi 0 - (phi 2 - phi 1)) = 0 := by
    simp only [theta] at h
    linear_combination h
  have e2 : phi 1 - phi 0 - (phi 2 - phi 1) = 0 := by
    rcases mul_eq_zero.mp e with h0 | h0
    · exact absurd h0 (ne_of_gt hc)
    · exact h0
  have p0 : phi 0 = Real.pi := by
    simp [phi, Real.arccos_neg_one]
  have c1 : Real.cos (phi 1) = -1 + 2 / 2000 := by
    unfold phi
    rw [Real.cos_arccos] <;> norm_num [particleCount]
  have c2 : Real.cos (phi 2) = -1 + 4 / 2000 := by
    unfold phi
    rw [Real.cos_arccos] <;> norm_num [particleCount]
  have e3 : phi 2 = 2 * phi 1 - Real.pi := by
    rw [p0] at e2
    linarith
  have e4 : Real.cos (phi 2) = -(2 * Real.cos (phi 1) ^ 2 - 1) := by
    rw [e3, Real.cos_sub_pi, Real.cos_two_mul]
  rw [c1, c2] at e4
  norm_num at e4

/-- C10, refuted at `i = 0` and `i = 1`: the azimuth step from particle 0 to
particle 1 is not the golden angle `π (3 - √5)` (it is negative), and it
differs from the step from particle 1 to particle 2, so the step is not one
constant angle. -/
theorem golden_angle_step_fails :
    theta 1 - theta 0 ≠ Real.pi * (3 - Real.sqrt 5) ∧ theta 1 - theta 0 ≠ theta 2 - theta 1 := by
  refine ⟨?_, theta_step_not_constant⟩
  have hlt : phi (0 + 1) < phi 0 := phi_succ_lt 0 (by decide)
  have hneg : theta 1 - theta 0 < 0 := by
    simp only [theta]
    have := mul_lt_mul_of_pos_left hlt sqrt_count_pi_pos
    simp only [zero_add] at this
    linarith
  have h5 : Real.sqrt 5 < 3 := by
    rw [show (3 : ℝ) = Real.sqrt (3 ^ 2) from (Real.sqrt_sq (by norm_num)).symm]
    exact Real.sqrt_lt_sqrt (by norm_num) (by norm_num)
  have hpos : 0 < Real.pi * (3 - Real.sqrt 5) := mul_pos Real.pi_pos (by linarith)
  intro h
  linarith

/-- C10 as amended: for every `i` with `i + 1 < particleCount` the azimuth of
particle `i + 1` differs from the azimuth of particle `i` by
`sqrt(count * π) * (φ (i+1) - φ i)`, which is negative (the azimuth strictly
decreases along the spiral); the step depends on `i`, as the steps at `i = 0`
and `i = 1` differ. -/
theorem theta_step (i : ℕ) (h : i + 1 < particleCount) :
    theta (i + 1) - theta i
        = Real.sqrt ((particleCount : ℝ) * Real.pi) * (phi (i + 1) - phi i)
      ∧ theta (i + 1) - theta i < 0
      ∧ theta 1 - theta 0 ≠ theta 2 - theta 1 := by
  have e : theta (i + 1) - theta i
      = Real.sqrt ((particleCount : ℝ) * Real.pi) * (phi (i + 1) - phi i) := by
    simp only [theta]; ring
  refine ⟨e, ?_, theta_step_not_constant⟩
  rw [e]
  exact mul_neg_of_pos_of_neg sqrt_count_pi_pos (by linarith [phi_succ_lt i h])

theorem theta_step_witness : theta (5 + 1) - theta 5 < 0 :=
  (theta_step 5 (by decide)).2.1

/-! ## The vertex shader: alpha and breathing -/

theorem smoothstep_of_le (x : ℝ) (h : x ≤ 5) : smoothstep 5 15 x = 0 := by
  have h1 : (x - 5) / (15 - 5) ≤ 0 := by
    apply div_nonpos_of_nonpos_of_nonneg <;> linarith
  have h2 : clamp ((x - 5) / (15 - 5)) 0 1 = 0 := by
    unfold clamp
    rw [max_eq_right h1, min_eq_left (by norm_num)]
  simp only [smoothstep, h2]
  norm_num

theorem smoothstep_of_ge (x : ℝ) (h : 15 ≤ x) : smoothstep 5 15 x = 1 := by
  have h1 : 1 ≤ (x - 5) / (15 - 5) := by
    rw [le_div_iff₀ (by norm_num)]
    linarith
  have h2 : clamp ((x - 5) / (15 - 5)) 0 1 = 1 := by
    unfold clamp
    rw [max_eq_left (by linarith), min_eq_right h1]
  simp only [smoothstep, h2]
  norm_num

/-- C7: the particle alpha `1 - smoothstep(5, 15, |pos|)` of a transformed
position is `1` whenever `|pos| ≤ 5` and `0` whenever `|pos| ≥ 15` (so `1` at
`|pos| = 5` and `0` at `|pos| = 15`), with
`smoothstep(a, b, x) = t * t * (3 - 2 t)`, `t = clamp((x - a) / (b - a), 0, 1)`;
this is the `vAlpha` the shader outputs for every vertex, time and pointer. -/
theorem alpha_plateaus (position : Vec3) (time mouseX mouseY : ℝ) :
    ((shaderPos position time mouseX mouseY).length ≤ 5 →
        vAlpha position time mouseX mouseY = 1)
      ∧ (15 ≤ (shaderPos position time mouseX mouseY).length →
        vAlpha position time mouseX mouseY = 0)
      ∧ (∀ pos : Vec3, pos.length ≤ 5 → alphaOf pos = 1)
      ∧ (∀ pos : Vec3, 15 ≤ pos.length → alphaOf pos = 0)
      ∧ (∀ a b x : ℝ, smoothstep a b x
          = min (max ((x - a) / (b - a)) 0) 1 * min (max ((x - a) / (b - a)) 0) 1
              * (3 - 2 * min (max ((x - a) / (b - a)) 0) 1)) := by
  have hin : ∀ pos : Vec3, pos.length ≤ 5 → alphaOf pos = 1 := by
    intro pos h
    simp [alphaOf, smoothstep_of_le _ h]
  have hout : ∀ pos : Vec3, 15 ≤ pos.length → alphaOf pos = 0 := by
    intro pos h
    simp [alphaOf, smoothstep_of_ge _ h]
  exact ⟨fun h => hin _ h, fun h => hout _ h, hin, hout, fun a b x => rfl⟩

theorem length_3_0_4 : Vec3.length ⟨3, 0, 4⟩ = 5 := by
  unfold Vec3.length
  rw [show ((3 : ℝ) ^ 2 + 0 ^ 2 + 4 ^ 2) = 5 ^ 2 by norm_num]
  exact Real.sqrt_sq (by norm_num)

theorem length_9_12_0 : Vec3.length ⟨9, 12, 0⟩ = 15 := by
  unfold Vec3.length
  rw [show ((9 : ℝ) ^ 2 + 12 ^ 2 + 0 ^ 2) = 15 ^ 2 by norm_num]
  exact Real.sqrt_sq (by norm_num)

theorem alpha_plateaus_witness :
    alphaOf ⟨3, 0, 4⟩ = 1 ∧ alphaOf ⟨9, 12, 0⟩ = 0 :=
  ⟨(alpha_plateaus ⟨0, 0, 0⟩ 0 0 0).2.2.1 ⟨3, 0, 4⟩ (le_of_eq length_3_0_4),
   (alpha_plateaus ⟨0, 0, 0⟩ 0 0 0).2.2.2.1 ⟨9, 12, 0⟩ (le_of_eq length_9_12_0.symm)⟩

/-- C8: for every real time `t` the breathing factor `sin(t * 0.5) * 0.3 + 1.0`
lies in the closed interval `[0.7, 1.3]`. -/
theorem breath_bounds (t : ℝ) : 0.7 ≤ breath t ∧ breath t ≤ 1.3 := by
  have h1 := Real.neg_one_le_sin (t * 0.5)
  have h2 := Real.sin_le_one (t * 0.5)
  unfold breath
  constructor <;> linarith

/-! ## The pointer-repulsion step -/

theorem length_0_0_neg9 : Vec3.length ⟨0, 0, -9⟩ = 9 := by
  unfold Vec3.length
  rw [show ((0 : ℝ) ^ 2 + 0 ^ 2 + (-9) ^ 2) = 9 ^ 2 by norm_num]
  exact Real.sqrt_sq (by norm_num)

/-- C6, refuted at `pos = (0, 0, -9)` and pointer `(1, 1)`: the x offset is
`1 * 2 * (1 - 9/15)`, but the y offset is not `1 * 2 * (1 - 9/15)`: line 139
reads `length(pos)` after line 138 has moved `pos.x`. -/
theorem mouseStep_same_length_fails :
    (mouseStep ⟨0, 0, -9⟩ 1 1).x - 0 = 1 * 2 * (1 - Vec3.length ⟨0, 0, -9⟩ / 15)
      ∧ (mouseStep ⟨0, 0, -9⟩ 1 1).y - 0 ≠ 1 * 2 * (1 - Vec3.length ⟨0, 0, -9⟩ / 15) := by
  have hL := length_0_0_neg9
  constructor
  · simp only [mouseStep, mouseStepX, mouseStepY, mouseInfluence]
    ring
  · simp only [mouseStep, mouseStepX, mouseStepY, mouseInfluence, hL]
    have hlt : (9 : ℝ) < Vec3.length ⟨0 + 1 * 2 * (1 - 9 / 15), 0, -9⟩ := by
      unfold Vec3.length
      rw [Real.lt_sqrt (by norm_num)]
      norm_num
    intro h
    have : Vec3.length ⟨0 + 1 * 2 * (1 - 9 / 15), 0, -9⟩ = 9 := by linarith
    linarith

/-- C6 as amended: in the pointer-repulsion step the x offset is
`px * 2 * (1 - L/15)` with `L` the length of the position after the wave step,
and the y offset is `py * 2 * (1 - L'/15)` with `L'` the length of the position
after the x offset has been applied; `z` is unchanged, and the two lengths
coincide when the x offset is zero. -/
theorem mouseStep_offsets (pos : Vec3) (px py : ℝ) :
    (mouseStep pos px py).x = pos.x + px * 2 * (1 - pos.length / 15)
      ∧ (mouseStep pos px py).y
          = pos.y + py * 2 *
              (1 - Vec3.length ⟨pos.x + px * 2 * (1 - pos.length / 15), pos.y, pos.z⟩ / 15)
      ∧ (mouseStep pos px py).z = pos.z
      ∧ (px * 2 * (1 - pos.length / 15) = 0 →
          (mouseStep pos px py).y = pos.y + py * 2 * (1 - pos.length / 15)) := by
  refine ⟨rfl, rfl, rfl, ?_⟩
  intro h
  simp only [mouseStep, mouseStepX, mouseStepY, mouseInfluence, h, add_zero]

theorem mouseStep_offsets_witness :
    (mouseStep ⟨3, 0, 4⟩ 0 1).y = 0 + 1 * 2 * (1 - Vec3.length ⟨3, 0, 4⟩ / 15) :=
  (mouseStep_offsets ⟨3, 0, 4⟩ 0 1).2.2.2 (by norm_num)

/-! ## `updateConnections`: the edge set -/

theorem readVec3_some_bound {positions : List ℝ} {j : ℕ} {p : Vec3}
    (h : readVec3 positions j = some p) : j * 3 + 2 < positions.length := by
  by_contra hc
  have hn : positions[j * 3 + 2]? = none := List.getElem?_eq_none (by omega)
  unfold readVec3 at h
  rw [hn] at h
  split at h <;> simp_all

theorem readVec3_of_lt {positions : List ℝ} {j : ℕ} (h : j * 3 + 2 < positions.length) :
    ∃ p, readVec3 positions j = some p := by
  unfold readVec3
  rw [List.getElem?_eq_getElem (by omega : j * 3 < positions.length),
    List.getElem?_eq_getElem (by omega : j * 3 + 1 < positions.length),
    List.getElem?_eq_getElem h]
  exact ⟨_, rfl⟩

theorem loop_cond_iff (L j : ℕ) : (j : ℝ) < (L : ℝ) / 3 ↔ j * 3 < L := by
  rw [lt_div_iff₀ (by norm_num : (0 : ℝ) < 3)]
  constructor
  · intro h
    exact_mod_cast h
  · intro h
    exact_mod_cast h

theorem segmentAt_eq_some (positions : List ℝ) (i j : ℕ) (s : Segment) :
    segmentAt positions i j = some s ↔
      ∃ p1 p2, readVec3 positions i = some p1 ∧ readVec3 positions j = some p2
        ∧ dist p1 p2 < connectionDistance ∧ s = ⟨i, j, p1, p2⟩ := by
  unfold segmentAt
  constructor
  · intro h
    split at h
    · rename_i p1 p2 h1 h2
      by_cases hd : dist p1 p2 < connectionDistance
      · rw [if_pos hd] at h
        exact ⟨p1, p2, h1, h2, hd, (Option.some.inj h).symm⟩
      · rw [if_neg hd] at h
        exact absurd h (by simp)
    · exact absurd h (by simp)
  · rintro ⟨p1, p2, h1, h2, hd, rfl⟩
    rw [h1, h2]
    simp only [if_pos hd]

theorem mem_innerLoop (positions : List ℝ) (i j0 : ℕ) (s : Segment) :
    s ∈ innerLoop positions i j0 ↔ ∃ k, segmentAt positions i (j0 + sampleRate * k) = some s := by
  rw [innerLoop]
  split
  · rw [List.mem_append, mem_innerLoop positions i (j0 + sampleRate) s]
    constructor
    · rintro (h0 | ⟨k, hk⟩)
      · refine ⟨0, ?_⟩
        simpa using h0
      · refine ⟨k + 1, ?_⟩
        rw [show j0 + sampleRate * (k + 1) = j0 + sampleRate + sampleRate * k by ring]
        exact hk
    · rintro ⟨k, hk⟩
      cases k with
      | zero =>
        left
        simpa using hk
      | succ k =>
        right
        refine ⟨k, ?_⟩
        rw [show j0 + sampleRate + sampleRate * k = j0 + sampleRate * (k + 1) by ring]
        exact hk
  · rename_i hc
    have hge : ¬ j0 * 3 < positions.length := fun h => hc ((loop_cond_iff _ _).mpr h)
    constructor
    · intro h
      exact absurd h (List.not_mem_nil _)
    · rintro ⟨k, hk⟩
      obtain ⟨p1, p2, _, h2, _, _⟩ := (segmentAt_eq_some _ _ _ _).mp hk
      have := readVec3_some_bound h2
      have hk0 : 0 ≤ sampleRate * k := Nat.zero_le _
      omega
termination_by positions.length - j0
decreasing_by
  rename_i hc
  have hlt : j0 * 3 < positions.length := (loop_cond_iff _ _).mp hc
  simp only [sampleRate]
  omega

theorem mem_outerLoop (positions : List ℝ) (i0 : ℕ) (s : Segment) :
    s ∈ outerLoop positions i0 ↔
      ∃ m k, segmentAt positions (i0 + sampleRate * m)
        (i0 + sampleRate * m + sampleRate + sampleRate * k) = some s := by
  rw [outerLoop]
  split
  · rename_i hc
    rw [List.mem_append, mem_innerLoop, mem_outerLoop positions (i0 + sampleRate) s]
    constructor
    · rintro (⟨k, hk⟩ | ⟨m, k, hk⟩)
      · exact ⟨0, k, by simpa using hk⟩
      · refine ⟨m + 1, k, ?_⟩
        rw [show i0 + sampleRate * (m + 1) = i0 + sampleRate + sampleRate * m by ring]
        exact hk
    · rintro ⟨m, k, hk⟩
      cases m with
      | zero =>
        left
        exact ⟨k, by simpa using hk⟩
      | succ m =>
        right
        refine ⟨m, k, ?_⟩
        rw [show i0 + sampleRate + sampleRate * m = i0 + sampleRate * (m + 1) by ring]
        exact hk
  · rename_i hc
    have hge : ¬ i0 * 3 < positions.length := fun h => hc ((loop_cond_iff _ _).mpr h)
    constructor
    · intro h
      exact absurd h (List.not_mem_nil _)
    · rintro ⟨m, k, hk⟩
      obtain ⟨p1, p2, h1, _, _, _⟩ := (segmentAt_eq_some _ _ _ _).mp hk
      have := readVec3_some_bound h1
      have hk0 : 0 ≤ sampleRate * m := Nat.zero_le _
      omega
termination_by positions.length - i0
decreasing_by
  rename_i hc
  have hlt : i0 * 3 < positions.length := (loop_cond_iff _ _).mp hc
  simp only [sampleRate]
  omega

theorem innerLoop_fields {positions : List ℝ} {i j0 : ℕ} {s : Segment}
    (h : s ∈ innerLoop positions i j0) : s.i = i ∧ j0 ≤ s.j := by
  obtain ⟨k, hk⟩ := (mem_innerLoop _ _ _ _).mp h
  obtain ⟨p1, p2, _, _, _, rfl⟩ := (segmentAt_eq_some _ _ _ _).mp hk
  exact ⟨rfl, Nat.le_add_right _ _⟩

theorem outerLoop_fields {positions : List ℝ} {i0 : ℕ} {s : Segment}
    (h : s ∈ outerLoop positions i0) : i0 ≤ s.i := by
  obtain ⟨m, k, hk⟩ := (mem_outerLoop _ _ _).mp h
  obtain ⟨p1, p2, _, _, _, rfl⟩ := (segmentAt_eq_some _ _ _ _).mp hk
  exact Nat.le_add_right _ _

theorem pairwise_option_toList {α : Type} (R : α → α → Prop) (o : Option α) :
    o.toList.Pairwise R := by
  cases o <;> simp

theorem innerLoop_pairwise (positions : List ℝ) (i j0 : ℕ) :
    (innerLoop positions i j0).Pairwise fun s t => s.j < t.j := by
  rw [innerLoop]
  split
  · rw [List.pairwise_append]
    refine ⟨pairwise_option_toList _ _, innerLoop_pairwise positions i (j0 + sampleRate), ?_⟩
    intro a ha b hb
    have ha' : segmentAt positions i j0 = some a := by simpa using ha
    obtain ⟨p1, p2, _, _, _, rfl⟩ := (segmentAt_eq_some _ _ _ _).mp ha'
    have := (innerLoop_fields hb).2
    simp only [sampleRate] at this
    show j0 < b.j
    omega
  · exact List.Pairwise.nil
termination_by positions.length - j0
decreasing_by
  rename_i hc
  have hlt : j0 * 3 < positions.length := (loop_cond_iff _ _).mp hc
  simp only [sampleRate]
  omega

theorem outerLoop_pairwise (positions : List ℝ) (i0 : ℕ) :
    (outerLoop positions i0).Pairwise fun s t => s.i < t.i ∨ (s.i = t.i ∧ s.j < t.j) := by
  rw [outerLoop]
  split
  · rw [List.pairwise_append]
    refine ⟨?_, outerLoop_pairwise positions (i0 + sampleRate), ?_⟩
    · have hp := innerLoop_pairwise positions i0 (i0 + sampleRate)
      have hall : ∀ s ∈ innerLoop positions i0 (i0 + sampleRate), s.i = i0 :=
        fun s hs => (innerLoop_fields hs).1
      refine List.Pairwise.imp_of_mem ?_ hp
      intro a b ha hb hab
      exact Or.inr ⟨by rw [hall a ha, hall b hb], hab⟩
    · intro a ha b hb
      have h1 := (innerLoop_fields ha).1
      have h2 := outerLoop_fields hb
      simp only [sampleRate] at h2
      left
      omega
  · exact List.Pairwise.nil
termination_by positions.length - i0
decreasing_by
  rename_i hc
  have hlt : i0 * 3 < positions.length := (loop_cond_iff _ _).mp hc
  simp only [sampleRate]
  omega

theorem mem_connectionPairs (positions : List ℝ) (i j : ℕ) :
    (i, j) ∈ connectionPairs positions ↔
      sampleRate ∣ i ∧ sampleRate ∣ j ∧ i < j ∧
        ∃ p1 p2, readVec3 positions i = some p1 ∧ readVec3 positions j = some p2
          ∧ dist p1 p2 < connectionDistance := by
  unfold connectionPairs connectionSegments
  rw [List.mem_map]
  constructor
  · rintro ⟨s, hs, he⟩
    obtain ⟨m, k, hk⟩ := (mem_outerLoop _ _ _).mp hs
    obtain ⟨p1, p2, h1, h2, hd, rfl⟩ := (segmentAt_eq_some _ _ _ _).mp hk
    simp only [Prod.mk.injEq] at he
    obtain ⟨rfl, rfl⟩ := he
    refine ⟨⟨m, by ring⟩, ⟨m + 1 + k, by ring⟩, ?_, p1, p2, h1, h2, hd⟩
    simp only [sampleRate]
    omega
  · rintro ⟨⟨m, rfl⟩, ⟨n, rfl⟩, hlt, p1, p2, h1, h2, hd⟩
    have hmn : m < n := by
      simp only [sampleRate] at hlt
      omega
    obtain ⟨k, rfl⟩ : ∃ k, n = m + 1 + k := ⟨n - (m + 1), by omega⟩
    refine ⟨⟨sampleRate * m, sampleRate * (m + 1 + k), p1, p2⟩, ?_, rfl⟩
    rw [mem_outerLoop]
    refine ⟨m, k, ?_⟩
    rw [segmentAt_eq_some]
    refine ⟨p1, p2, ?_, ?_, hd, ?_⟩
    · rw [Nat.zero_add]; exact h1
    · rw [show 0 + sampleRate * m + sampleRate + sampleRate * k = sampleRate * (m + 1 + k) by ring]
      exact h2
    · rw [show 0 + sampleRate * m + sampleRate + sampleRate * k = sampleRate * (m + 1 + k) by ring,
        Nat.zero_add]

theorem connectionPairs_nodup (positions : List ℝ) : (connectionPairs positions).Nodup := by
  unfold connectionPairs connectionSegments
  rw [List.Nodup, List.pairwise_map]
  refine List.Pairwise.imp ?_ (outerLoop_pairwise positions 0)
  intro a b h he
  simp only [Prod.mk.injEq] at he
  rcases h with h | ⟨_, h⟩ <;> omega

theorem dist_symm (p1 p2 : Vec3) : dist p1 p2 = dist p2 p1 := by
  unfold dist
  congr 1
  ring

/-- C2: for a position buffer of `N` particles, the edge set built by
`updateConnections` (stride 10, threshold 3) is exactly the set of pairs
`(i, j)` with `i` and `j` multiples of the stride, `i < j < N`, and Euclidean
distance between positions `i` and `j` strictly below 3 (distance exactly 3
gives no edge).  No self-pair appears, no pair appears twice or in both
orders, the distance is symmetric, every pushed segment carries the
coordinates read at its two indices, and the stored result is a function of
the positions alone: whatever line buffer was stored before is replaced. -/
theorem connectionPairs_spec (positions : List ℝ) (N : ℕ) (hlen : positions.length = 3 * N) :
    (∀ i j, (i, j) ∈ connectionPairs positions ↔
        sampleRate ∣ i ∧ sampleRate ∣ j ∧ i < j ∧ j < N ∧
          ∃ p1 p2, readVec3 positions i = some p1 ∧ readVec3 positions j = some p2
            ∧ dist p1 p2 < 3)
      ∧ (∀ i j p1 p2, readVec3 positions i = some p1 → readVec3 positions j = some p2 →
          dist p1 p2 = 3 → (i, j) ∉ connectionPairs positions)
      ∧ (∀ i, (i, i) ∉ connectionPairs positions)
      ∧ (connectionPairs positions).Nodup
      ∧ (∀ i j, (i, j) ∈ connectionPairs positions → (j, i) ∉ connectionPairs positions)
      ∧ (∀ p1 p2, dist p1 p2 = dist p2 p1)
      ∧ (∀ s ∈ connectionSegments positions,
          readVec3 positions s.i = some s.p1 ∧ readVec3 positions s.j = some s.p2)
      ∧ (∀ s : State, s.particleSystem.positions = positions → ∀ old : List ℝ,
          (updateConnections { s with connectionLines := old }).connectionLines
            = linePositions positions) := by
  refine ⟨?_, ?_, ?_, connectionPairs_nodup positions, ?_, dist_symm, ?_, ?_⟩
  · intro i j
    rw [mem_connectionPairs]
    constructor
    · rintro ⟨hi, hj, hlt, p1, p2, h1, h2, hd⟩
      have := readVec3_some_bound h2
      exact ⟨hi, hj, hlt, by omega, p1, p2, h1, h2, hd⟩
    · rintro ⟨hi, hj, hlt, _, p1, p2, h1, h2, hd⟩
      exact ⟨hi, hj, hlt, p1, p2, h1, h2, hd⟩
  · intro i j p1 p2 h1 h2 hd hmem
    obtain ⟨_, _, _, q1, q2, e1, e2, hq⟩ := (mem_connectionPairs _ _ _).mp hmem
    rw [h1] at e1
    rw [h2] at e2
    obtain rfl := Option.some.inj e1
    obtain rfl := Option.some.inj e2
    simp only [connectionDistance] at hq
    linarith
  · intro i hmem
    obtain ⟨_, _, hlt, _⟩ := (mem_connectionPairs _ _ _).mp hmem
    exact lt_irrefl _ hlt
  · intro i j h1 h2
    obtain ⟨_, _, hlt, _⟩ := (mem_connectionPairs _ _ _).mp h1
    obtain ⟨_, _, hlt', _⟩ := (mem_connectionPairs _ _ _).mp h2
    omega
  · intro s hs
    obtain ⟨m, k, hk⟩ := (mem_outerLoop _ _ _).mp hs
    obtain ⟨p1, p2, h1, h2, _, rfl⟩ := (segmentAt_eq_some _ _ _ _).mp hk
    exact ⟨h1, h2⟩
  · intro s hs old
    simp only [updateConnections, hs]

theorem connectionPairs_spec_witness :
    (0, 10) ∈ connectionPairs (List.replicate 33 (0 : ℝ)) :=
  ((connectionPairs_spec (List.replicate 33 (0 : ℝ)) 11 (by simp)).1 0 10).mpr
    ⟨dvd_zero _, dvd_refl _, by norm_num, by norm_num, ⟨0, 0, 0⟩, ⟨0, 0, 0⟩,
      by simp [readVec3], by simp [readVec3], by simp [dist]⟩

/-! ## `animate` and `destroy` -/

theorem animate_time (s : State) : (animate s).time = s.time + 0.01 := by
  unfold animate
  dsimp only
  split <;> rfl

theorem animate_frameRequests (s : State) :
    (animate s).frameRequests = s.frameRequests + 1 := by
  unfold animate
  dsimp only
  split <;> rfl

theorem animate_renderCalls (s : State) : (animate s).renderCalls = s.renderCalls + 1 := by
  unfold animate
  dsimp only
  split <;> rfl

theorem animate_canvasAttached (s : State) :
    (animate s).canvasAttached = s.canvasAttached := by
  unfold animate
  dsimp only
  split <;> rfl

theorem animate_positions (s : State) :
    (animate s).particleSystem.positions = s.particleSystem.positions := by
  unfold animate
  dsimp only
  split <;> rfl

theorem animate_host_flags (s : State) (d c : Bool) :
    animate { s with rendererDisposed := d, canvasAttached := c }
      = { animate s with rendererDisposed := d, canvasAttached := c } := by
  have ht : (animateHead { s with rendererDisposed := d, canvasAttached := c }).time
      = (animateHead s).time := rfl
  unfold animate
  dsimp only
  rw [ht]
  by_cases h : recomputeDue (animateHead s).time
  · rw [if_pos h, if_pos h]; rfl
  · rw [if_neg h, if_neg h]; rfl

theorem destroy_of_attached (s : State) (h : s.canvasAttached = true) :
    destroy s = Except.ok { s with rendererDisposed := true, canvasAttached := false } := by
  simp [destroy, removeCanvas, disposeRenderer, h]

theorem destroy_of_detached (s : State) (h : s.canvasAttached = false) :
    destroy s = Except.error DOMException.notFoundError := by
  simp [destroy, removeCanvas, disposeRenderer, h]

theorem exampleScene_attached : exampleScene.canvasAttached = true := by
  unfold exampleScene create
  rw [animate_canvasAttached]
  rfl

/-- C3, refuted on the instance built in `exampleWindow`: after `destroy()` has
succeeded, one more call of `animate()` advances the clock, turns the particle
system, calls `renderer.render` once more and requests one more frame. -/
theorem animate_after_destroy_runs :
    destroy exampleScene = Except.ok exampleDestroyed
      ∧ (animate exampleDestroyed).time ≠ exampleDestroyed.time
      ∧ (animate exampleDestroyed).renderCalls = exampleDestroyed.renderCalls + 1
      ∧ (animate exampleDestroyed).frameRequests = exampleDestroyed.frameRequests + 1 := by
  refine ⟨destroy_of_attached _ exampleScene_attached, ?_, animate_renderCalls _,
    animate_frameRequests _⟩
  rw [animate_time]
  intro h
  norm_num at h

/-- C3 as amended: `destroy()` only disposes the renderer and detaches the
canvas; it sets no stop flag and cancels no frame request.  A call of
`animate()` after it therefore runs the full tick, exactly the tick that would
have run without the teardown: every subsystem field (time, smoothed pointer,
rotations, positions, edge set) is updated as usual, the clock advances by
0.01, one more frame is requested and `renderer.render` is called once more. -/
theorem animate_after_destroy (s : State) (h : s.canvasAttached = true) :
    destroy s = Except.ok { s with rendererDisposed := true, canvasAttached := false }
      ∧ animate { s with rendererDisposed := true, canvasAttached := false }
          = { animate s with rendererDisposed := true, canvasAttached := false }
      ∧ (animate { s with rendererDisposed := true, canvasAttached := false }).time
          = s.time + 0.01
      ∧ (animate { s with rendererDisposed := true, canvasAttached := false }).frameRequests
          = s.frameRequests + 1
      ∧ (animate { s with rendererDisposed := true, canvasAttached := false }).renderCalls
          = s.renderCalls + 1 :=
  ⟨destroy_of_attached s h, animate_host_flags s true false, animate_time _,
    animate_frameRequests _, animate_renderCalls _⟩

theorem animate_after_destroy_witness :
    destroy exampleScene
        = Except.ok { exampleScene with rendererDisposed := true, canvasAttached := false }
      ∧ (animate { exampleScene with rendererDisposed := true, canvasAttached := false }).time
          = exampleScene.time + 0.01 :=
  ⟨(animate_after_destroy exampleScene exampleScene_attached).1,
   (animate_after_destroy exampleScene exampleScene_attached).2.2.1⟩

/-- C4, refuted on the instance built in `exampleWindow`: the first `destroy()`
succeeds and the second raises `NotFoundError`. -/
theorem destroy_twice_raises :
    destroy exampleScene = Except.ok exampleDestroyed
      ∧ destroy exampleDestroyed = Except.error DOMException.notFoundError :=
  ⟨destroy_of_attached _ exampleScene_attached, destroy_of_detached _ rfl⟩

/-- C4 as amended: for every scene whose canvas is attached to the container
(as the constructor leaves it), the first `destroy()` completes without error
and leaves the renderer disposed and the canvas detached; in a second call
`renderer.dispose()` changes nothing and `container.removeChild` then raises
`NotFoundError`. -/
theorem destroy_twice (s : State) (h : s.canvasAttached = true) :
    destroy s = Except.ok { s with rendererDisposed := true, canvasAttached := false }
      ∧ disposeRenderer { s with rendererDisposed := true, canvasAttached := false }
          = { s with rendererDisposed := true, canvasAttached := false }
      ∧ destroy { s with rendererDisposed := true, canvasAttached := false }
          = Except.error DOMException.notFoundError :=
  ⟨destroy_of_attached s h, rfl, destroy_of_detached _ rfl⟩

theorem destroy_twice_witness :
    destroy { exampleScene with rendererDisposed := true, canvasAttached := false }
      = Except.error DOMException.notFoundError :=
  (destroy_twice exampleScene exampleScene_attached).2.2

/-! ## What the recomputation reads -/

theorem ticks_positions (n : ℕ) (s : State) :
    (ticks n s).particleSystem.positions = s.particleSystem.positions := by
  induction n with
  | zero => rfl
  | succ n ih =>
    show (animate (ticks n s)).particleSystem.positions = _
    rw [animate_positions, ih]

theorem readVec3_example_0 : readVec3 examplePositions 0 = some ⟨0, 0, 9⟩ := rfl

theorem readVec3_example_10 : readVec3 examplePositions 10 = some ⟨0, 2.5, 9⟩ := rfl

theorem shaderPos_example_0 (y : ℝ) :
    shaderPos ⟨0, y, 9⟩ Real.pi 0 0 = ⟨0, y * 1.3, 9 * 1.3⟩ := by
  have hb : breath Real.pi = 1.3 := by
    unfold breath
    rw [show Real.pi * 0.5 = Real.pi / 2 by ring, Real.sin_pi_div_two]
    norm_num
  have hw : wave ⟨0, y, 9⟩ Real.pi = 0 := by
    simp [wave]
  simp only [shaderPos, waveStep, hw, hb, mouseStep, mouseStepX, mouseStepY, Vec3.add,
    Vec3.scale, Vec3.normalize]
  norm_num

theorem shaderPos_example_rest (y : ℝ) :
    shaderPos ⟨0, y, 9⟩ 0 0 0 = ⟨0, y, 9⟩ := by
  have hb : breath 0 = 1 := by simp [breath]
  have hw : wave ⟨0, y, 9⟩ 0 = 0 := by simp [wave]
  simp only [shaderPos, waveStep, hw, hb, mouseStep, mouseStepX, mouseStepY, Vec3.add,
    Vec3.scale, Vec3.normalize]
  norm_num

/-- C5, refuted on `examplePositions` (particle 0 at `(0, 0, 9)`, particle 10 at
`(0, 2.5, 9)`): with the pointer at rest the transformed positions are at
distance below 3 at time `0` and at distance at least 3 at time `π`, yet the
recomputation yields the same line buffer at both times, and the pair
`(0, 10)` is an edge at time `π`: it measures the stored base positions. -/
theorem recompute_ignores_transform :
    dist (shaderPos ⟨0, 0, 9⟩ 0 0 0) (shaderPos ⟨0, 2.5, 9⟩ 0 0 0) < 3
      ∧ 3 ≤ dist (shaderPos ⟨0, 0, 9⟩ Real.pi 0 0) (shaderPos ⟨0, 2.5, 9⟩ Real.pi 0 0)
      ∧ readVec3 (exampleSceneAt Real.pi).particleSystem.positions 0 = some ⟨0, 0, 9⟩
      ∧ readVec3 (exampleSceneAt Real.pi).particleSystem.positions 10 = some ⟨0, 2.5, 9⟩
      ∧ (0, 10) ∈ connectionPairs (exampleSceneAt Real.pi).particleSystem.positions
      ∧ (updateConnections (exampleSceneAt 0)).connectionLines
          = (updateConnections (exampleSceneAt Real.pi)).connectionLines := by
  have hd : dist ⟨0, 0, 9⟩ ⟨0, 2.5, 9⟩ < 3 := by
    unfold dist
    rw [Real.sqrt_lt' (by norm_num)]
    norm_num
  refine ⟨?_, ?_, readVec3_example_0, readVec3_example_10, ?_, rfl⟩
  · rw [shaderPos_example_rest, shaderPos_example_rest]
    exact hd
  · rw [shaderPos_example_0, shaderPos_example_0]
    unfold dist
    apply Real.le_sqrt_of_sq_le
    norm_num
  · show (0, 10) ∈ connectionPairs examplePositions
    rw [mem_connectionPairs]
    exact ⟨dvd_zero _, dvd_refl _, by norm_num, _, _, readVec3_example_0,
      readVec3_example_10, hd⟩

/-- C5 as amended: the connection recomputation measures distances between the
entries of the particle system's position attribute array.  That array holds
the base positions written at construction and `animate()` never writes it (the
per-frame transform exists only in the vertex shader), so after any number of
ticks, whatever the time and the smoothed pointer, a recompute produces the
same line buffer. -/
theorem recompute_reads_base_positions (s : State) (n m : ℕ) :
    (updateConnections s).connectionLines = linePositions s.particleSystem.positions
      ∧ (animate s).particleSystem.positions = s.particleSystem.positions
      ∧ (ticks n s).particleSystem.positions = s.particleSystem.positions
      ∧ (updateConnections (ticks n s)).connectionLines
          = (updateConnections (ticks m s)).connectionLines
      ∧ (∀ (rand : ℕ → ℝ) (w : Window),
          (ticks n (create rand w)).particleSystem.positions = particlePositions rand) := by
  refine ⟨rfl, animate_positions s, ticks_positions n s, ?_, ?_⟩
  · simp only [updateConnections, ticks_positions]
  · intro rand w
    rw [ticks_positions]
    unfold create
    rw [animate_positions]
    simp only [constructed]

/-! ## The iterations of `updateConnections` -/

theorem sampleRate_pos : 0 < sampleRate := by decide

theorem ceilDiv_of_le (N j s : ℕ) (hs : 0 < s) (h : N ≤ j) : (N - j + s - 1) / s = 0 := by
  apply Nat.div_eq_of_lt
  omega

theorem ceilDiv_step (N j s : ℕ) (hs : 0 < s) (h : j < N) :
    (N - j + s - 1) / s = (N - (j + s) + s - 1) / s + 1 := by
  by_cases hc : s ≤ N - j
  · have e : N - j + s - 1 = (N - (j + s) + s - 1) + s := by omega
    rw [e, Nat.add_div_right _ hs]
  · have e0 : (N - (j + s) + s - 1) / s = 0 := by
      apply Nat.div_eq_of_lt
      omega
    rw [e0]
    apply Nat.div_eq_of_lt_le
    · omega
    · omega

theorem loopVisits_eq (s : ℕ) (hs : 0 < s) (N j : ℕ) :
    loopVisits s hs (3 * N) j
      = (List.range ((N - j + s - 1) / s)).map (fun k => j + s * k) := by
  rw [loopVisits]
  split
  · rename_i hc
    have hlt : j < N := by
      have := (loop_cond_iff (3 * N) j).mp hc
      omega
    rw [loopVisits_eq s hs N (j + s), ceilDiv_step N j s hs hlt, List.range_succ_eq_map,
      List.map_cons, List.map_map]
    congr 1
    apply List.map_congr_left
    intro k _
    simp only [Function.comp, Nat.succ_eq_add_one]
    ring
  · rename_i hc
    have hge : N ≤ j := by
      by_contra hlt
      exact hc ((loop_cond_iff (3 * N) j).mpr (by omega))
    rw [ceilDiv_of_le N j s hs hge]
    rfl
termination_by 3 * N - j
decreasing_by
  rename_i hc
  have := (loop_cond_iff (3 * N) j).mp hc
  omega

theorem length_loopVisits (s : ℕ) (hs : 0 < s) (N j : ℕ) :
    (loopVisits s hs (3 * N) j).length = (N - j + s - 1) / s := by
  rw [loopVisits_eq, List.length_map, List.length_range]

theorem length_checkedPairs (s : ℕ) (hs : 0 < s) (N i : ℕ) :
    (checkedPairs s hs (3 * N) i).length = ((N - i + s - 1) / s).choose 2 := by
  rw [checkedPairs]
  split
  · rename_i hc
    have hlt : i < N := by
      have := (loop_cond_iff (3 * N) i).mp hc
      omega
    rw [List.length_append, List.length_map, length_loopVisits,
      length_checkedPairs s hs N (i + s), ceilDiv_step N i s hs hlt, Nat.choose_succ_succ,
      Nat.choose_one_right]
  · rename_i hc
    have hge : N ≤ i := by
      by_contra hlt
      exact hc ((loop_cond_iff (3 * N) i).mpr (by omega))
    rw [ceilDiv_of_le N i s hs hge]
    rfl
termination_by 3 * N - i
decreasing_by
  rename_i hc
  have := (loop_cond_iff (3 * N) i).mp hc
  omega

theorem ceilDiv_eq_ceil (N s : ℕ) (hs : 0 < s) : (N + s - 1) / s = ⌈(N : ℝ) / (s : ℝ)⌉₊ := by
  have hs' : (0 : ℝ) < (s : ℝ) := by exact_mod_cast hs
  apply eq_of_forall_ge_iff
  intro n
  rw [Nat.ceil_le, div_le_iff₀ hs', ← Nat.lt_succ_iff, Nat.div_lt_iff_lt_mul hs]
  constructor
  · intro h
    have h' : N ≤ n * s := by
      rw [Nat.succ_mul] at h
      omega
    exact_mod_cast h'
  · intro h
    have h' : N ≤ n * s := by exact_mod_cast h
    rw [Nat.succ_mul]
    omega

theorem mem_loopVisits_zero (s : ℕ) (hs : 0 < s) (N i : ℕ) :
    i ∈ loopVisits s hs (3 * N) 0 ↔ s ∣ i ∧ i < N := by
  rw [loopVisits_eq, List.mem_map]
  constructor
  · rintro ⟨k, hk, rfl⟩
    rw [List.mem_range, Nat.lt_iff_add_one_le, Nat.le_div_iff_mul_le hs, Nat.add_mul] at hk
    refine ⟨⟨k, by ring⟩, ?_⟩
    have : s * k = k * s := Nat.mul_comm _ _
    omega
  · rintro ⟨⟨k, rfl⟩, hlt⟩
    refine ⟨k, ?_, by ring⟩
    rw [List.mem_range, Nat.lt_iff_add_one_le, Nat.le_div_iff_mul_le hs, Nat.add_mul]
    have : s * k = k * s := Nat.mul_comm _ _
    omega

theorem innerLoop_eq_filterMap (positions : List ℝ) (i j : ℕ) :
    innerLoop positions i j
      = (loopVisits sampleRate sampleRate_pos positions.length j).filterMap
          (segmentAt positions i) := by
  rw [innerLoop, loopVisits]
  split
  · rw [List.filterMap_cons, innerLoop_eq_filterMap positions i (j + sampleRate)]
    cases segmentAt positions i j <;> rfl
  · rfl
termination_by positions.length - j
decreasing_by
  rename_i hc
  have hlt : j * 3 < positions.length := (loop_cond_iff _ _).mp hc
  simp only [sampleRate]
  omega

theorem outerLoop_eq_filterMap (positions : List ℝ) (i : ℕ) :
    outerLoop positions i
      = (checkedPairs sampleRate sampleRate_pos positions.length i).filterMap
          (fun p => segmentAt positions p.1 p.2) := by
  rw [outerLoop, checkedPairs]
  split
  · rw [List.filterMap_append, outerLoop_eq_filterMap positions (i + sampleRate),
      innerLoop_eq_filterMap, List.filterMap_map]
    rfl
  · rfl
termination_by positions.length - i
decreasing_by
  rename_i hc
  have hlt : i * 3 < positions.length := (loop_cond_iff _ _).mp hc
  simp only [sampleRate]
  omega

/-- C11: for every particle count `N` and stride `s > 0`, the outer loop of
`updateConnections` visits exactly the indices `0, s, 2s, ...` below `N`, that
is `⌈N / s⌉` sampled indices, and the inner loop body runs for exactly
`m (m - 1) / 2` pairs when `m` indices are sampled.  The loops of the source
are the case `s = sampleRate`: its segments are the checked pairs that pass the
distance test.  For `N = 2000` and `s = 10` there are exactly 200 sampled
indices and `19900 = C(200, 2)` distance checks. -/
theorem updateConnections_iterations (N s : ℕ) (hs : 0 < s) :
    loopVisits s hs (3 * N) 0 = (List.range ⌈(N : ℝ) / (s : ℝ)⌉₊).map (fun k => s * k)
      ∧ (∀ i, i ∈ loopVisits s hs (3 * N) 0 ↔ s ∣ i ∧ i < N)
      ∧ (loopVisits s hs (3 * N) 0).length = ⌈(N : ℝ) / (s : ℝ)⌉₊
      ∧ (checkedPairs s hs (3 * N) 0).length
          = (loopVisits s hs (3 * N) 0).length * ((loopVisits s hs (3 * N) 0).length - 1) / 2
      ∧ (∀ positions : List ℝ, positions.length = 3 * N →
          connectionSegments positions
            = (checkedPairs sampleRate sampleRate_pos (3 * N) 0).filterMap
                (fun p => segmentAt positions p.1 p.2))
      ∧ (loopVisits sampleRate sampleRate_pos (3 * particleCount) 0).length = 200
      ∧ (checkedPairs sampleRate sampleRate_pos (3 * particleCount) 0).length = 19900
      ∧ Nat.choose 200 2 = 19900 := by
  have hc : (N - 0 + s - 1) / s = ⌈(N : ℝ) / (s : ℝ)⌉₊ := by
    rw [Nat.sub_zero]
    exact ceilDiv_eq_ceil N s hs
  have h200 : (particleCount - 0 + sampleRate - 1) / sampleRate = 200 := by decide
  have hch : Nat.choose 200 2 = 19900 := by
    rw [Nat.choose_two_right]
  refine ⟨?_, mem_loopVisits_zero s hs N, ?_, ?_, ?_, ?_, ?_, hch⟩
  · rw [loopVisits_eq, hc]
    apply List.map_congr_left
    intro k _
    rw [Nat.zero_add]
  · rw [length_loopVisits, hc]
  · rw [length_checkedPairs, length_loopVisits, Nat.choose_two_right]
  · intro positions hlen
    unfold connectionSegments
    rw [outerLoop_eq_filterMap, hlen]
  · rw [length_loopVisits, h200]
  · rw [length_checkedPairs, h200, hch]

theorem updateConnections_iterations_witness :
    (loopVisits 10 (by decide) (3 * 2000) 0).length = ⌈((2000 : ℕ) : ℝ) / ((10 : ℕ) : ℝ)⌉₊
      ∧ (checkedPairs 10 (by decide) (3 * 2000) 0).length
          = (loopVisits 10 (by decide) (3 * 2000) 0).length
              * ((loopVisits 10 (by decide) (3 * 2000) 0).length - 1) / 2 :=
  ⟨(updateConnections_iterations 2000 10 (by decide)).2.2.1,
   (updateConnections_iterations 2000 10 (by decide)).2.2.2.1⟩

/-! ## The clock, the duty cycle and the pointer smoothing -/

theorem animate_connectionUpdates (s : State) :
    (animate s).connectionUpdates
      = s.connectionUpdates + if recomputeDue (s.time + 0.01) then 1 else 0 := by
  have ht : (animateHead s).time = s.time + 0.01 := rfl
  unfold animate
  dsimp only
  rw [ht]
  by_cases h : recomputeDue (s.time + 0.01)
  · rw [if_pos h, if_pos h]; rfl
  · rw [if_neg h, if_neg h]; rfl

theorem animate_connectionLines (s : State) :
    (animate s).connectionLines
      = if recomputeDue (s.time + 0.01) then linePositions s.particleSystem.positions
        else s.connectionLines := by
  have ht : (animateHead s).time = s.time + 0.01 := rfl
  unfold animate
  dsimp only
  rw [ht]
  by_cases h : recomputeDue (s.time + 0.01)
  · rw [if_pos h, if_pos h]; rfl
  · rw [if_neg h, if_neg h]; rfl

theorem ticks_time (n : ℕ) (s : State) : (ticks n s).time = s.time + 0.01 * n := by
  induction n with
  | zero => simp [ticks]
  | succ n ih =>
    show (animate (ticks n s)).time = _
    rw [animate_time, ih]
    push_cast
    ring

theorem floor_tick_time (n : ℕ) : ⌊((0 : ℝ) + 0.01 * (n : ℝ)) * 10⌋ = ((n / 10 : ℕ) : ℤ) := by
  rw [Int.floor_eq_iff, Int.cast_natCast]
  have h := Nat.div_add_mod n 10
  have hm := Nat.mod_lt n (by norm_num : 10 > 0)
  have hr : (n : ℝ) = 10 * ((n / 10 : ℕ) : ℝ) + ((n % 10 : ℕ) : ℝ) := by exact_mod_cast h.symm
  have hm' : ((n % 10 : ℕ) : ℝ) < 10 := by exact_mod_cast hm
  have hm0 : (0 : ℝ) ≤ ((n % 10 : ℕ) : ℝ) := Nat.cast_nonneg _
  have e : ((0 : ℝ) + 0.01 * (n : ℝ)) * 10 = (n : ℝ) / 10 := by ring
  rw [e]
  constructor
  · rw [le_div_iff₀ (by norm_num)]
    linarith
  · rw [div_lt_iff₀ (by norm_num)]
    linarith

theorem recomputeDue_tick (s : State) (hs : s.time = 0) (n : ℕ) :
    recomputeDue ((ticks n s).time) ↔ n / 10 % 3 = 0 := by
  unfold recomputeDue
  rw [ticks_time, hs, floor_tick_time]
  omega

theorem ticks_succ_connectionUpdates (s : State) (hs : s.time = 0) (n : ℕ) :
    (ticks (n + 1) s).connectionUpdates
      = (ticks n s).connectionUpdates + if (n + 1) / 10 % 3 = 0 then 1 else 0 := by
  show (animate (ticks n s)).connectionUpdates = _
  rw [animate_connectionUpdates]
  have e : (ticks n s).time + 0.01 = (ticks (n + 1) s).time := (animate_time _).symm
  rw [e]
  by_cases h : (n + 1) / 10 % 3 = 0
  · rw [if_pos h, if_pos ((recomputeDue_tick s hs (n + 1)).mpr h)]
  · rw [if_neg h, if_neg (fun h' => h ((recomputeDue_tick s hs (n + 1)).mp h'))]

theorem ticks_window_connectionUpdates (s : State) (hs : s.time = 0) (k : ℕ) :
    (ticks (k + 30) s).connectionUpdates = (ticks k s).connectionUpdates + 10 := by
  induction k with
  | zero =>
    simp only [ticks_succ_connectionUpdates s hs, Nat.zero_add]
    norm_num
  | succ k ih =>
    rw [show k + 1 + 30 = (k + 30) + 1 by ring, ticks_succ_connectionUpdates s hs (k + 30), ih,
      ticks_succ_connectionUpdates s hs k]
    have e : (k + 30 + 1) / 10 % 3 = 0 ↔ (k + 1) / 10 % 3 = 0 := by omega
    by_cases h : (k + 1) / 10 % 3 = 0
    · rw [if_pos h, if_pos (e.mpr h)]
    · rw [if_neg h, if_neg (fun h' => h (e.mp h'))]

theorem constructed_time (rand : ℕ → ℝ) (w : Window) : (constructed rand w).time = 0 := by
  simp only [constructed]

theorem handle_time (s : State) (e : Window × Event) : (handle s e).time = s.time := by
  obtain ⟨w, ev⟩ := e
  cases ev with
  | mousemove x y => rfl
  | touchmove touches => cases touches <;> rfl
  | resize => rfl
  | scroll => rfl

theorem foldl_handle_time (events : List (Window × Event)) (s : State) :
    (events.foldl handle s).time = s.time := by
  induction events generalizing s with
  | nil => rfl
  | cons e rest ih => rw [List.foldl_cons, ih, handle_time]

theorem animate_mouse (s : State) :
    (animate s).mouse
      = { x := s.mouse.x + (s.mouse.targetX - s.mouse.x) * 0.05
          y := s.mouse.y + (s.mouse.targetY - s.mouse.y) * 0.05
          targetX := s.mouse.targetX
          targetY := s.mouse.targetY } := by
  unfold animate
  dsimp only
  split <;> rfl

theorem ticks_mouse (n : ℕ) (s : State) :
    (ticks n s).mouse.targetX = s.mouse.targetX
      ∧ (ticks n s).mouse.targetY = s.mouse.targetY
      ∧ (ticks n s).mouse.x - s.mouse.targetX = 0.95 ^ n * (s.mouse.x - s.mouse.targetX)
      ∧ (ticks n s).mouse.y - s.mouse.targetY = 0.95 ^ n * (s.mouse.y - s.mouse.targetY) := by
  induction n with
  | zero => simp [ticks]
  | succ n ih =>
    obtain ⟨h1, h2, h3, h4⟩ := ih
    have e : (ticks (n + 1) s).mouse = (animate (ticks n s)).mouse := rfl
    rw [e, animate_mouse]
    dsimp only
    refine ⟨h1, h2, ?_, ?_⟩
    · rw [h1, pow_succ]
      linear_combination 0.95 * h3
    · rw [h2, pow_succ]
      linear_combination 0.95 * h4

theorem tendsto_of_geometric_error (f : ℕ → ℝ) (a c : ℝ)
    (h : ∀ n, f n - a = 0.95 ^ n * c) : Filter.Tendsto f Filter.atTop (nhds a) := by
  have hp : Filter.Tendsto (fun n : ℕ => (0.95 : ℝ) ^ n) Filter.atTop (nhds 0) :=
    tendsto_pow_atTop_nhds_zero_of_lt_one (by norm_num) (by norm_num)
  have h2 : Filter.Tendsto (fun n : ℕ => (0.95 : ℝ) ^ n * c + a) Filter.atTop
      (nhds (0 * c + a)) := (hp.mul_const c).add_const a
  have e : f = fun n : ℕ => (0.95 : ℝ) ^ n * c + a := by
    funext n
    linarith [h n]
  rw [e]
  simpa using h2

/-- C13: each tick updates the smoothed pointer by
`smoothed += (raw - smoothed) * 0.05` on both axes and leaves the raw target
alone; hence, the target staying as it is over `n` ticks,
`smoothed_n - raw = 0.95 ^ n * (smoothed_0 - raw)`: the error shrinks by the
factor 0.95 every tick, never changes sign (no overshoot) and converges to 0. -/
theorem pointer_smoothing (s : State) (n : ℕ) :
    (animate s).mouse.x = s.mouse.x + (s.mouse.targetX - s.mouse.x) * 0.05
      ∧ (animate s).mouse.y = s.mouse.y + (s.mouse.targetY - s.mouse.y) * 0.05
      ∧ (animate s).mouse.targetX = s.mouse.targetX
      ∧ (animate s).mouse.targetY = s.mouse.targetY
      ∧ (ticks n s).mouse.x - s.mouse.targetX = 0.95 ^ n * (s.mouse.x - s.mouse.targetX)
      ∧ (ticks n s).mouse.y - s.mouse.targetY = 0.95 ^ n * (s.mouse.y - s.mouse.targetY)
      ∧ (ticks (n + 1) s).mouse.x - s.mouse.targetX
          = 0.95 * ((ticks n s).mouse.x - s.mouse.targetX)
      ∧ (ticks (n + 1) s).mouse.y - s.mouse.targetY
          = 0.95 * ((ticks n s).mouse.y - s.mouse.targetY)
      ∧ 0 ≤ ((ticks n s).mouse.x - s.mouse.targetX) * (s.mouse.x - s.mouse.targetX)
      ∧ 0 ≤ ((ticks n s).mouse.y - s.mouse.targetY) * (s.mouse.y - s.mouse.targetY)
      ∧ Filter.Tendsto (fun k => (ticks k s).mouse.x) Filter.atTop (nhds s.mouse.targetX)
      ∧ Filter.Tendsto (fun k => (ticks k s).mouse.y) Filter.atTop (nhds s.mouse.targetY) := by
  have hm := animate_mouse s
  obtain ⟨_, _, hx, hy⟩ := ticks_mouse n s
  obtain ⟨_, _, hx1, hy1⟩ := ticks_mouse (n + 1) s
  have hp : (0 : ℝ) ≤ 0.95 ^ n := by positivity
  refine ⟨by rw [hm], by rw [hm], by rw [hm], by rw [hm], hx, hy, ?_, ?_, ?_, ?_, ?_, ?_⟩
  · rw [hx1, hx, pow_succ]; ring
  · rw [hy1, hy, pow_succ]; ring
  · rw [hx]
    have := mul_nonneg hp (mul_self_nonneg (s.mouse.x - s.mouse.targetX))
    linarith
  · rw [hy]
    have := mul_nonneg hp (mul_self_nonneg (s.mouse.y - s.mouse.targetY))
    linarith
  · exact tendsto_of_geometric_error _ _ _ (fun k => (ticks_mouse k s).2.2.1)
  · exact tendsto_of_geometric_error _ _ _ (fun k => (ticks_mouse k s).2.2.2)

/-! ## The event listeners -/

/-- C14: for every pointer or first-touch position `(px, py)` and viewport with
`width > 0` and `height > 0`, the raw pointer target is set to
`x = 2 px / width - 1` and `y = -(2 py / height - 1)`; when `0 ≤ px ≤ width`
and `0 ≤ py ≤ height` both coordinates lie in `[-1, 1]`, and the top-left
corner maps to `(-1, 1)`.  A `touchmove` event with an empty touch list leaves
the state unchanged. -/
theorem pointer_normalization (w : Window) (px py : ℝ) (s : State)
    (hw : 0 < w.innerWidth) (hh : 0 < w.innerHeight) :
    (onMouseMove w px py s).mouse.targetX = 2 * px / w.innerWidth - 1
      ∧ (onMouseMove w px py s).mouse.targetY = -(2 * py / w.innerHeight - 1)
      ∧ (∀ rest : List Touch,
          (onTouchMove w (⟨px, py⟩ :: rest) s).mouse.targetX = 2 * px / w.innerWidth - 1
            ∧ (onTouchMove w (⟨px, py⟩ :: rest) s).mouse.targetY
                = -(2 * py / w.innerHeight - 1))
      ∧ (0 ≤ px → px ≤ w.innerWidth → 0 ≤ py → py ≤ w.innerHeight →
          -1 ≤ (onMouseMove w px py s).mouse.targetX
            ∧ (onMouseMove w px py s).mouse.targetX ≤ 1
            ∧ -1 ≤ (onMouseMove w px py s).mouse.targetY
            ∧ (onMouseMove w px py s).mouse.targetY ≤ 1)
      ∧ (onMouseMove w 0 0 s).mouse.targetX = -1
      ∧ (onMouseMove w 0 0 s).mouse.targetY = 1
      ∧ onTouchMove w [] s = s := by
  have ex : px / w.innerWidth * 2 - 1 = 2 * px / w.innerWidth - 1 := by ring
  have ey : -(py / w.innerHeight) * 2 + 1 = -(2 * py / w.innerHeight - 1) := by ring
  refine ⟨ex, ey, fun _ => ⟨ex, ey⟩, ?_, ?_, ?_, rfl⟩
  · intro h0 h1 h2 h3
    have a0 : 0 ≤ px / w.innerWidth := div_nonneg h0 hw.le
    have a1 : px / w.innerWidth ≤ 1 := (div_le_one hw).mpr h1
    have b0 : 0 ≤ py / w.innerHeight := div_nonneg h2 hh.le
    have b1 : py / w.innerHeight ≤ 1 := (div_le_one hh).mpr h3
    simp only [onMouseMove]
    refine ⟨?_, ?_, ?_, ?_⟩ <;> linarith
  · simp [onMouseMove]
  · simp [onMouseMove]

theorem pointer_normalization_witness :
    -1 ≤ (onMouseMove exampleWindow 960 270 exampleScene).mouse.targetX
      ∧ (onMouseMove exampleWindow 960 270 exampleScene).mouse.targetX ≤ 1
      ∧ -1 ≤ (onMouseMove exampleWindow 960 270 exampleScene).mouse.targetY
      ∧ (onMouseMove exampleWindow 960 270 exampleScene).mouse.targetY ≤ 1 :=
  (pointer_normalization exampleWindow 960 270 exampleScene
    (by norm_num [exampleWindow]) (by norm_num [exampleWindow])).2.2.2.1
    (by norm_num) (by norm_num [exampleWindow]) (by norm_num) (by norm_num [exampleWindow])

/-! ### Scroll, resize and page load -/

theorem onScroll_opacity (w : Window) (s : State) :
    (onScroll w s).particleSystem.opacity = max 0 (1 - w.scrollY / w.innerHeight) := rfl

/-- C15, refuted at `scrollY = -100` in a viewport of height 1000: the opacity
multiplier set by `onScroll` is `1.1`, which is not
`clamp(1 - scrollY / viewportHeight, 0, 1) = 1` and lies outside `[0, 1]`. -/
theorem scroll_opacity_exceeds_one :
    (onScroll ⟨1920, 1000, 1, -100⟩ exampleScene).particleSystem.opacity = 1.1
      ∧ clamp (1 - (-100 : ℝ) / 1000) 0 1 = 1
      ∧ (onScroll ⟨1920, 1000, 1, -100⟩ exampleScene).particleSystem.opacity
          ≠ clamp (1 - (-100 : ℝ) / 1000) 0 1
      ∧ 1 < (onScroll ⟨1920, 1000, 1, -100⟩ exampleScene).particleSystem.opacity := by
  have h1 : (onScroll ⟨1920, 1000, 1, -100⟩ exampleScene).particleSystem.opacity = 1.1 := by
    rw [onScroll_opacity]
    norm_num
  have h2 : clamp (1 - (-100 : ℝ) / 1000) 0 1 = 1 := by
    unfold clamp
    norm_num
  refine ⟨h1, h2, ?_, ?_⟩
  · rw [h1, h2]
    norm_num
  · rw [h1]
    norm_num

/-- C15 as amended: for every scroll offset and every `viewportHeight > 0` the
opacity multiplier set by `onScroll` is `max(0, 1 - scrollY / viewportHeight)`,
which is never negative; for `scrollY ≥ 0` it equals
`clamp(1 - scrollY / viewportHeight, 0, 1)` and lies in `[0, 1]`, in particular
it is 0 at `scrollY = viewportHeight` and 1 at `scrollY = 0`; for a negative
scroll offset it is not clamped and exceeds 1. -/
theorem scroll_opacity (w : Window) (s : State) (hh : 0 < w.innerHeight) :
    (onScroll w s).particleSystem.opacity = max 0 (1 - w.scrollY / w.innerHeight)
      ∧ 0 ≤ (onScroll w s).particleSystem.opacity
      ∧ (0 ≤ w.scrollY →
          (onScroll w s).particleSystem.opacity = clamp (1 - w.scrollY / w.innerHeight) 0 1
            ∧ (onScroll w s).particleSystem.opacity ≤ 1)
      ∧ (w.scrollY = w.innerHeight → (onScroll w s).particleSystem.opacity = 0)
      ∧ (w.scrollY = 0 → (onScroll w s).particleSystem.opacity = 1)
      ∧ (w.scrollY < 0 → 1 < (onScroll w s).particleSystem.opacity) := by
  rw [onScroll_opacity]
  refine ⟨rfl, le_max_left _ _, ?_, ?_, ?_, ?_⟩
  · intro h0
    have hq : 0 ≤ w.scrollY / w.innerHeight := div_nonneg h0 hh.le
    have h1 : 1 - w.scrollY / w.innerHeight ≤ 1 := by linarith
    constructor
    · unfold clamp
      rw [max_comm, min_eq_left (max_le h1 (by norm_num))]
    · exact max_le (by norm_num) h1
  · intro h
    rw [h, div_self (ne_of_gt hh)]
    norm_num
  · intro h
    rw [h]
    norm_num
  · intro h
    have hq : w.scrollY / w.innerHeight < 0 := div_neg_of_neg_of_pos h hh
    exact lt_max_of_lt_right (by linarith)

theorem scroll_opacity_witness :
    (onScroll ⟨1920, 1000, 1, 250⟩ exampleScene).particleSystem.opacity
        = clamp (1 - (250 : ℝ) / 1000) 0 1
      ∧ (onScroll ⟨1920, 1000, 1, 250⟩ exampleScene).particleSystem.opacity ≤ 1 :=
  (scroll_opacity ⟨1920, 1000, 1, 250⟩ exampleScene (by norm_num)).2.2.1 (by norm_num)

/-- C16, refuted at a viewport of height 0 and at one of width 0: `onResize`
divides by the height as it is, so for `1920 x 0` the camera aspect is not a
finite number and the renderer height is set to 0, and for `0 x 1080` the
aspect is 0, not positive, and the renderer width is set to 0: nothing is
clamped to 1. -/
theorem resize_does_not_clamp :
    (onResize ⟨1920, 0, 1, 0⟩ exampleScene).cameraAspect = none
      ∧ (onResize ⟨1920, 0, 1, 0⟩ exampleScene).rendererHeight = 0
      ∧ (onResize ⟨0, 1080, 1, 0⟩ exampleScene).cameraAspect = some 0
      ∧ (onResize ⟨0, 1080, 1, 0⟩ exampleScene).rendererWidth = 0 := by
  refine ⟨?_, rfl, ?_, rfl⟩
  · simp [onResize, finiteQuotient]
  · simp [onResize, finiteQuotient]

/-- C16 as amended: on a resize event `onResize` clamps nothing: it sets the
renderer size to the viewport's width and height as they are and the camera
aspect to `width / height`.  With width and height positive the aspect is the
finite positive number `width / height`; with height 0 the division is by zero
and the aspect is not a finite number. -/
theorem resize_aspect (w : Window) (s : State) :
    (onResize w s).rendererWidth = w.innerWidth
      ∧ (onResize w s).rendererHeight = w.innerHeight
      ∧ (onResize w s).cameraAspect = finiteQuotient w.innerWidth w.innerHeight
      ∧ (w.innerHeight = 0 → (onResize w s).cameraAspect = none)
      ∧ (0 < w.innerWidth → 0 < w.innerHeight →
          (onResize w s).cameraAspect = some (w.innerWidth / w.innerHeight)
            ∧ 0 < w.innerWidth / w.innerHeight) := by
  refine ⟨rfl, rfl, rfl, ?_, ?_⟩
  · intro h
    simp [onResize, finiteQuotient, h]
  · intro hw hh
    refine ⟨?_, div_pos hw hh⟩
    simp [onResize, finiteQuotient, ne_of_gt hh]

theorem resize_aspect_witness :
    (onResize exampleWindow exampleScene).cameraAspect
        = some (exampleWindow.innerWidth / exampleWindow.innerHeight)
      ∧ 0 < exampleWindow.innerWidth / exampleWindow.innerHeight :=
  (resize_aspect exampleWindow exampleScene).2.2.2.2
    (by norm_num [exampleWindow]) (by norm_num [exampleWindow])

/-- C17, refuted: when `document.getElementById` finds no host element the
`DOMContentLoaded` handler raises nothing and leaves `window.hero3D`
unassigned; the only error in reach, from `new Hero3D(null)`, is the
`TypeError` of `appendChild`, raised after scene, camera and renderer exist. -/
theorem missing_container_is_silent :
    onDOMContentLoaded none (fun _ => 1 / 2) exampleWindow = Except.ok none
      ∧ newHero3D none (fun _ => 1 / 2) exampleWindow
          = Except.error ConstructorError.typeError :=
  ⟨rfl, rfl⟩

/-- C17 as amended: when the designated host element does not exist, the
`DOMContentLoaded` handler silently skips the construction of the scene: no
error is raised and no instance is created; when the element exists the
instance is constructed and stored. -/
theorem page_load (rand : ℕ → ℝ) (w : Window) (c : Element) :
    onDOMContentLoaded none rand w = Except.ok none
      ∧ onDOMContentLoaded (some c) rand w = Except.ok (some (create rand w)) :=
  ⟨rfl, rfl⟩

/-! ## Replay -/

theorem animated_animate (s : State) :
    animated (animate s)
      = { time := s.time + 0.01
          mouse :=
            { x := s.mouse.x + (s.mouse.targetX - s.mouse.x) * 0.05
              y := s.mouse.y + (s.mouse.targetY - s.mouse.y) * 0.05
              targetX := s.mouse.targetX
              targetY := s.mouse.targetY }
          uniforms :=
            { time := s.time + 0.01
              mouseX := s.mouse.x + (s.mouse.targetX - s.mouse.x) * 0.05
              mouseY := s.mouse.y + (s.mouse.targetY - s.mouse.y) * 0.05
              pixelRatio := s.particleSystem.uniforms.pixelRatio }
          rotation :=
            ⟨(s.mouse.y + (s.mouse.targetY - s.mouse.y) * 0.05) * 0.2,
             s.particleSystem.rotation.y + 0.002,
             (s.mouse.x + (s.mouse.targetX - s.mouse.x) * 0.05) * 0.1⟩
          opacity := s.particleSystem.opacity
          floatingShapes :=
            s.floatingShapes.map
              (animateShape (s.time + 0.01) (s.mouse.x + (s.mouse.targetX - s.mouse.x) * 0.05))
          glowOrbs := s.glowOrbs.map (animateOrb (s.time + 0.01))
          pointLight1 :=
            ⟨Real.sin ((s.time + 0.01) * 0.5) * 25, Real.cos ((s.time + 0.01) * 0.5) * 25,
             s.pointLight1.z⟩
          pointLight2 :=
            ⟨Real.cos ((s.time + 0.01) * 0.3) * 25, Real.sin ((s.time + 0.01) * 0.3) * 25,
             s.pointLight2.z⟩ } := by
  unfold animate
  dsimp only
  split <;> rfl

theorem animated_fields {s1 s2 : State} (h : animated s1 = animated s2) :
    s1.time = s2.time ∧ s1.mouse = s2.mouse
      ∧ s1.particleSystem.uniforms = s2.particleSystem.uniforms
      ∧ s1.particleSystem.rotation = s2.particleSystem.rotation
      ∧ s1.particleSystem.opacity = s2.particleSystem.opacity
      ∧ s1.floatingShapes = s2.floatingShapes ∧ s1.glowOrbs = s2.glowOrbs
      ∧ s1.pointLight1 = s2.pointLight1 ∧ s1.pointLight2 = s2.pointLight2 :=
  ⟨congrArg Animated.time h, congrArg Animated.mouse h, congrArg Animated.uniforms h,
    congrArg Animated.rotation h, congrArg Animated.opacity h,
    congrArg Animated.floatingShapes h, congrArg Animated.glowOrbs h,
    congrArg Animated.pointLight1 h, congrArg Animated.pointLight2 h⟩

theorem animated_animate_congr {s1 s2 : State} (h : animated s1 = animated s2) :
    animated (animate s1) = animated (animate s2) := by
  obtain ⟨h1, h2, h3, h4, h5, h6, h7, h8, h9⟩ := animated_fields h
  rw [animated_animate, animated_animate, h1, h2, h3, h4, h5, h6, h7, h8, h9]

theorem animated_handle_congr {s1 s2 : State} (h : animated s1 = animated s2)
    (e : Window × Event) : animated (handle s1 e) = animated (handle s2 e) := by
  obtain ⟨h1, h2, h3, h4, h5, h6, h7, h8, h9⟩ := animated_fields h
  obtain ⟨w, ev⟩ := e
  cases ev with
  | mousemove x y =>
    simp only [handle, onMouseMove, animated, h1, h2, h3, h4, h5, h6, h7, h8, h9]
  | touchmove touches =>
    cases touches with
    | nil => exact h
    | cons t rest =>
      simp only [handle, onTouchMove, animated, h1, h2, h3, h4, h5, h6, h7, h8, h9]
  | resize =>
    simp only [handle, onResize, animated, h1, h2, h3, h4, h5, h6, h7, h8, h9]
  | scroll =>
    simp only [handle, onScroll, animated, h1, h2, h3, h4, h5, h6, h7, h8, h9]

theorem animated_foldl_congr (events : List (Window × Event)) {s1 s2 : State}
    (h : animated s1 = animated s2) :
    animated (events.foldl handle s1) = animated (events.foldl handle s2) := by
  induction events generalizing s1 s2 with
  | nil => exact h
  | cons e rest ih =>
    rw [List.foldl_cons, List.foldl_cons]
    exact ih (animated_handle_congr h e)

theorem animated_run_congr (inputs : List (List (Window × Event))) {s1 s2 : State}
    (h : animated s1 = animated s2) :
    animated (run s1 inputs) = animated (run s2 inputs) := by
  induction inputs generalizing s1 s2 with
  | nil => exact h
  | cons events rest ih =>
    show animated (run (frame s1 events) rest) = animated (run (frame s2 events) rest)
    exact ih (animated_animate_congr (animated_foldl_congr events h))

/-- C19: replay determinism.  Two runs that start from states with the same
animated part (the same clock and pointer, particle field uniforms, rotation
and opacity, ornaments, glow orbs and lights; in particular the same
constructed state, or two instances constructed from the same random draws at
the same device pixel ratio) and receive the same per-frame sequence of pointer, touch,
resize and scroll events have the same animated part after every tick; what
else the two instances hold (edge buffer, camera, renderer, host counters)
does not matter. -/
theorem replay_deterministic (s1 s2 : State) (inputs : List (List (Window × Event)))
    (h : animated s1 = animated s2) :
    animated (run s1 inputs) = animated (run s2 inputs)
      ∧ (∀ k : ℕ, animated (run s1 (inputs.take k)) = animated (run s2 (inputs.take k)))
      ∧ (∀ (rand : ℕ → ℝ) (w1 w2 : Window) (k : ℕ),
          w1.devicePixelRatio = w2.devicePixelRatio →
          animated (run (create rand w1) (inputs.take k))
            = animated (run (create rand w2) (inputs.take k))) := by
  refine ⟨animated_run_congr inputs h, fun k => animated_run_congr (inputs.take k) h, ?_⟩
  intro rand w1 w2 k hd
  apply animated_run_congr
  unfold create
  apply animated_animate_congr
  simp only [animated, constructed, hd]

theorem replay_deterministic_witness :
    animated (run exampleScene [[(exampleWindow, Event.mousemove 960 270)], []])
      = animated (run exampleDestroyed [[(exampleWindow, Event.mousemove 960 270)], []]) :=
  (replay_deterministic exampleScene exampleDestroyed
    [[(exampleWindow, Event.mousemove 960 270)], []] rfl).1

/-! ## The floating shapes -/

theorem animate_floatingShapes (s : State) :
    (animate s).floatingShapes
      = s.floatingShapes.map (animateShape (animate s).time (animate s).mouse.x) := by
  have h := congrArg Animated.floatingShapes (animated_animate s)
  rw [animate_time, animate_mouse]
  exact h

theorem animateShape_scrollShape (t mx scrollY : ℝ) (shape : Shape) :
    animateShape t mx (scrollShape scrollY shape) = animateShape t mx shape := rfl

theorem exampleShape_mem :
    animateShape (animate exampleScene).time (animate exampleScene).mouse.x
        (animateShape (animate (constructed (fun _ => 1 / 2) exampleWindow)).time
          (animate (constructed (fun _ => 1 / 2) exampleWindow)).mouse.x
            (mkShape (fun _ => 1 / 2) (drawsPerParticle * particleCount)
              GeometryKind.icosahedron))
      ∈ (animate exampleScene).floatingShapes := by
  rw [animate_floatingShapes]
  apply List.mem_map_of_mem
  unfold exampleScene create
  rw [animate_floatingShapes]
  apply List.mem_map_of_mem
  simp [constructed, createFloatingShapes, spawnShapes]

/-- C20: after every tick each ornament's vertical position is
`y = originalY + 2 * sin(time * floatSpeed + floatOffset)`, a function of the
current time and of the shape's constants only (which the tick leaves as they
are): `|y - originalY| ≤ 2`, the value does not depend on the previous `y`, and
a scroll-parallax `y` written by an earlier scroll event is overwritten by the
next tick. -/
theorem ornament_vertical (s : State) (w : Window) :
    (animate s).floatingShapes
        = s.floatingShapes.map (animateShape (animate s).time (animate s).mouse.x)
      ∧ (∀ shape : Shape, ∀ t mx : ℝ,
          (animateShape t mx shape).position.y
              = shape.userData.originalY
                + 2 * Real.sin (t * shape.userData.floatSpeed + shape.userData.floatOffset)
            ∧ (animateShape t mx shape).userData = shape.userData
            ∧ ∀ y : ℝ,
                animateShape t mx { shape with position := { shape.position with y := y } }
                  = animateShape t mx shape)
      ∧ (∀ shape ∈ (animate s).floatingShapes,
          shape.position.y
              = shape.userData.originalY
                + 2 * Real.sin ((animate s).time * shape.userData.floatSpeed
                    + shape.userData.floatOffset)
            ∧ |shape.position.y - shape.userData.originalY| ≤ 2)
      ∧ (animate (onScroll w s)).floatingShapes = (animate s).floatingShapes := by
  have hy : ∀ (shape : Shape) (t mx : ℝ),
      (animateShape t mx shape).position.y
        = shape.userData.originalY
          + 2 * Real.sin (t * shape.userData.floatSpeed + shape.userData.floatOffset) := by
    intro shape t mx
    simp only [animateShape]
    ring
  refine ⟨animate_floatingShapes s, fun shape t mx => ⟨hy shape t mx, rfl, fun _ => rfl⟩, ?_, ?_⟩
  · intro shape hmem
    rw [animate_floatingShapes, List.mem_map] at hmem
    obtain ⟨sh, _, rfl⟩ := hmem
    have hu : (animateShape (animate s).time (animate s).mouse.x sh).userData = sh.userData :=
      rfl
    rw [hy, hu]
    refine ⟨rfl, ?_⟩
    have h1 := Real.neg_one_le_sin ((animate s).time * sh.userData.floatSpeed
      + sh.userData.floatOffset)
    have h2 := Real.sin_le_one ((animate s).time * sh.userData.floatSpeed
      + sh.userData.floatOffset)
    rw [abs_le]
    constructor <;> linarith
  · rw [animate_floatingShapes, animate_floatingShapes]
    have ht : (animate (onScroll w s)).time = (animate s).time := by
      rw [animate_time, animate_time]; rfl
    have hm : (animate (onScroll w s)).mouse = (animate s).mouse := by
      rw [animate_mouse, animate_mouse]; rfl
    rw [ht, hm]
    show (s.floatingShapes.map (scrollShape w.scrollY)).map _ = _
    rw [List.map_map]
    rfl

theorem ornament_vertical_witness :
    |(animateShape (animate exampleScene).time (animate exampleScene).mouse.x
        (animateShape (animate (constructed (fun _ => 1 / 2) exampleWindow)).time
          (animate (constructed (fun _ => 1 / 2) exampleWindow)).mouse.x
            (mkShape (fun _ => 1 / 2) (drawsPerParticle * particleCount)
              GeometryKind.icosahedron))).position.y
      - (animateShape (animate exampleScene).time (animate exampleScene).mouse.x
        (animateShape (animate (constructed (fun _ => 1 / 2) exampleWindow)).time
          (animate (constructed (fun _ => 1 / 2) exampleWindow)).mouse.x
            (mkShape (fun _ => 1 / 2) (drawsPerParticle * particleCount)
              GeometryKind.icosahedron))).userData.originalY| ≤ 2 :=
  ((ornament_vertical exampleScene exampleWindow).2.2.1 _ exampleShape_mem).2

/-! ## Scroll parallax, drift, orbs and lights -/

/-- C21: on every scroll event `onScroll` sets each ornament's `y` to
`originalY - scrollY * parallaxFactor * 0.05` and changes no other ornament
field (`x`, `z`, rotation, user data, geometry, colour), keeps the number and
order of the ornaments, and changes neither the clock nor the pointer state. -/
theorem onScroll_ornaments (w : Window) (s : State) :
    (onScroll w s).floatingShapes = s.floatingShapes.map (scrollShape w.scrollY)
      ∧ (∀ shape : Shape,
          (scrollShape w.scrollY shape).position.y
              = shape.userData.originalY - w.scrollY * shape.userData.parallaxFactor * 0.05
            ∧ (scrollShape w.scrollY shape).position.x = shape.position.x
            ∧ (scrollShape w.scrollY shape).position.z = shape.position.z
            ∧ (scrollShape w.scrollY shape).rotation = shape.rotation
            ∧ (scrollShape w.scrollY shape).userData = shape.userData
            ∧ (scrollShape w.scrollY shape).kind = shape.kind
            ∧ (scrollShape w.scrollY shape).color = shape.color)
      ∧ (onScroll w s).floatingShapes.length = s.floatingShapes.length
      ∧ (onScroll w s).time = s.time
      ∧ (onScroll w s).mouse = s.mouse := by
  refine ⟨rfl, fun shape => ⟨rfl, rfl, rfl, rfl, rfl, rfl, rfl⟩, ?_, rfl, rfl⟩
  simp [onScroll]

/-! ### The lights -/

theorem animate_pointLights (s : State) :
    (animate s).pointLight1
        = ⟨Real.sin ((animate s).time * 0.5) * 25, Real.cos ((animate s).time * 0.5) * 25,
            s.pointLight1.z⟩
      ∧ (animate s).pointLight2
        = ⟨Real.cos ((animate s).time * 0.3) * 25, Real.sin ((animate s).time * 0.3) * 25,
            s.pointLight2.z⟩ := by
  have h := animated_animate s
  rw [animate_time]
  exact ⟨congrArg Animated.pointLight1 h, congrArg Animated.pointLight2 h⟩

/-- C25: after every tick both point lights lie at distance exactly 25 from the
origin in the XY plane (`x ^ 2 + y ^ 2 = 625`): light 1 at
`(25 sin(0.5 time), 25 cos(0.5 time))` and light 2 at
`(25 cos(0.3 time), 25 sin(0.3 time))`, their `z` coordinates left unchanged by
the tick. -/
theorem lights_orbit (s : State) :
    (animate s).pointLight1.x = 25 * Real.sin (0.5 * (animate s).time)
      ∧ (animate s).pointLight1.y = 25 * Real.cos (0.5 * (animate s).time)
      ∧ (animate s).pointLight1.z = s.pointLight1.z
      ∧ (animate s).pointLight2.x = 25 * Real.cos (0.3 * (animate s).time)
      ∧ (animate s).pointLight2.y = 25 * Real.sin (0.3 * (animate s).time)
      ∧ (animate s).pointLight2.z = s.pointLight2.z
      ∧ (animate s).pointLight1.x ^ 2 + (animate s).pointLight1.y ^ 2 = 625
      ∧ (animate s).pointLight2.x ^ 2 + (animate s).pointLight2.y ^ 2 = 625
      ∧ Real.sqrt ((animate s).pointLight1.x ^ 2 + (animate s).pointLight1.y ^ 2) = 25
      ∧ Real.sqrt ((animate s).pointLight2.x ^ 2 + (animate s).pointLight2.y ^ 2) = 25 := by
  obtain ⟨h1, h2⟩ := animate_pointLights s
  have e5 : (animate s).time * 0.5 = 0.5 * (animate s).time := by ring
  have e3 : (animate s).time * 0.3 = 0.3 * (animate s).time := by ring
  rw [e5] at h1
  rw [e3] at h2
  have q1 : (animate s).pointLight1.x ^ 2 + (animate s).pointLight1.y ^ 2 = 625 := by
    rw [h1]
    have := Real.sin_sq_add_cos_sq (0.5 * (animate s).time)
    dsimp only
    nlinarith
  have q2 : (animate s).pointLight2.x ^ 2 + (animate s).pointLight2.y ^ 2 = 625 := by
    rw [h2]
    have := Real.sin_sq_add_cos_sq (0.3 * (animate s).time)
    dsimp only
    nlinarith
  have r25 : Real.sqrt 625 = 25 := by
    rw [show (625 : ℝ) = 25 ^ 2 by norm_num]
    exact Real.sqrt_sq (by norm_num)
  refine ⟨?_, ?_, ?_, ?_, ?_, ?_, q1, q2, by rw [q1, r25], by rw [q2, r25]⟩
  · rw [h1]; dsimp only; ring
  · rw [h1]; dsimp only; ring
  · rw [h1]
  · rw [h2]; dsimp only; ring
  · rw [h2]; dsimp only; ring
  · rw [h2]

/-! ### The glow orbs -/

theorem animate_glowOrbs (s : State) :
    (animate s).glowOrbs = s.glowOrbs.map (animateOrb (animate s).time) := by
  have h := congrArg Animated.glowOrbs (animated_animate s)
  rw [animate_time]
  exact h

theorem mem_spawnOrbs (rand : ℕ → ℝ) (specs : List OrbSpec) (n : ℕ) (orb : Orb)
    (h : orb ∈ spawnOrbs rand specs n) : ∃ k o, orb = mkOrb rand k o := by
  induction specs generalizing n with
  | nil => exact absurd h (List.not_mem_nil _)
  | cons o rest ih =>
    rw [spawnOrbs, List.mem_cons] at h
    rcases h with h | h
    · exact ⟨n, o, h⟩
    · exact ih _ h

theorem mkOrb_floatRange (rand : ℕ → ℝ) (hr : ∀ k, 0 ≤ rand k ∧ rand k < 1) (k : ℕ)
    (o : OrbSpec) :
    1 ≤ (mkOrb rand k o).userData.floatRange ∧ (mkOrb rand k o).userData.floatRange ≤ 3 := by
  have h := hr (k + 1)
  simp only [mkOrb]
  constructor <;> linarith [h.1, h.2]

theorem mkOrb_floatSpeed (rand : ℕ → ℝ) (hr : ∀ k, 0 ≤ rand k ∧ rand k < 1) (k : ℕ)
    (o : OrbSpec) :
    0.2 ≤ (mkOrb rand k o).userData.floatSpeed ∧ (mkOrb rand k o).userData.floatSpeed ≤ 0.5 := by
  have h := hr k
  simp only [mkOrb]
  constructor <;> linarith [h.1, h.2]

/-- C23: after every tick each glow orb is at
`y = anchorY + sin(time * floatSpeed) * floatRange` and
`x = anchorX + cos(time * floatSpeed * 0.7) * floatRange * 0.5`, `z` unchanged,
a function of the time and of the orb's constants only; hence
`|y - anchorY| ≤ floatRange` and `|x - anchorX| ≤ floatRange / 2` at all times
for a nonnegative `floatRange`, as every spawned orb has. -/
theorem orb_position (s : State) :
    (animate s).glowOrbs = s.glowOrbs.map (animateOrb (animate s).time)
      ∧ (∀ (orb : Orb) (t : ℝ),
          (animateOrb t orb).position.y
              = orb.userData.originalPos.y
                + Real.sin (t * orb.userData.floatSpeed) * orb.userData.floatRange
            ∧ (animateOrb t orb).position.x
              = orb.userData.originalPos.x
                + Real.cos (t * orb.userData.floatSpeed * 0.7) * orb.userData.floatRange * 0.5
            ∧ (animateOrb t orb).position.z = orb.position.z
            ∧ (animateOrb t orb).userData = orb.userData
            ∧ (0 ≤ orb.userData.floatRange →
                |(animateOrb t orb).position.y - orb.userData.originalPos.y|
                    ≤ orb.userData.floatRange
                  ∧ |(animateOrb t orb).position.x - orb.userData.originalPos.x|
                    ≤ orb.userData.floatRange / 2))
      ∧ (∀ (rand : ℕ → ℝ) (n : ℕ), (∀ k, 0 ≤ rand k ∧ rand k < 1) →
          ∀ orb ∈ createGlowOrbs rand n, 0 ≤ orb.userData.floatRange) := by
  refine ⟨animate_glowOrbs s, ?_, ?_⟩
  · intro orb t
    refine ⟨rfl, rfl, rfl, rfl, ?_⟩
    intro h0
    have s1 := Real.neg_one_le_sin (t * orb.userData.floatSpeed)
    have s2 := Real.sin_le_one (t * orb.userData.floatSpeed)
    have c1 := Real.neg_one_le_cos (t * orb.userData.floatSpeed * 0.7)
    have c2 := Real.cos_le_one (t * orb.userData.floatSpeed * 0.7)
    simp only [animateOrb]
    constructor
    · rw [abs_le]
      constructor <;> nlinarith
    · rw [abs_le]
      constructor <;> nlinarith
  · intro rand n hr orb hmem
    obtain ⟨k, o, rfl⟩ := mem_spawnOrbs rand orbPositions n orb hmem
    linarith [(mkOrb_floatRange rand hr k o).1]

theorem orb_position_witness :
    |(animateOrb 1 (mkOrb (fun _ => 1 / 2) 0 ⟨⟨-15, 10, -5⟩, 0x00D4FF, 3⟩)).position.y
        - (mkOrb (fun _ => 1 / 2) 0 ⟨⟨-15, 10, -5⟩, 0x00D4FF, 3⟩).userData.originalPos.y|
      ≤ (mkOrb (fun _ => 1 / 2) 0 ⟨⟨-15, 10, -5⟩, 0x00D4FF, 3⟩).userData.floatRange :=
  (((orb_position exampleScene).2.1
    (mkOrb (fun _ => 1 / 2) 0 ⟨⟨-15, 10, -5⟩, 0x00D4FF, 3⟩) 1).2.2.2.2
    (by norm_num [mkOrb])).1

/-- C24, refuted on the first orb spawned with all draws `1/2` (`floatSpeed`
0.35, `floatRange` 2) at time 1: its position does not satisfy the ellipse
equation, the left side being larger than 1. -/
theorem orb_not_on_ellipse :
    1 < (((animateOrb 1 (mkOrb (fun _ => 1 / 2) 0 ⟨⟨-15, 10, -5⟩, 0x00D4FF, 3⟩)).position.x
            - (-15)) / (2 / 2)) ^ 2
        + (((animateOrb 1 (mkOrb (fun _ => 1 / 2) 0 ⟨⟨-15, 10, -5⟩, 0x00D4FF, 3⟩)).position.y
            - 10) / 2) ^ 2
      ∧ (mkOrb (fun _ => 1 / 2) 0 ⟨⟨-15, 10, -5⟩, 0x00D4FF, 3⟩).userData.floatRange = 2
      ∧ (mkOrb (fun _ => 1 / 2) 0 ⟨⟨-15, 10, -5⟩, 0x00D4FF, 3⟩).userData.originalPos
          = ⟨-15, 10, -5⟩ := by
  refine ⟨?_, by norm_num [mkOrb], rfl⟩
  have hfs : (1 : ℝ) * (1 / 2 * 0.3 + 0.2) = 0.35 := by norm_num
  have hfr : (1 / 2 : ℝ) * 2 + 1 = 2 := by norm_num
  simp only [animateOrb, mkOrb, hfs, hfr]
  have hpi : (0.35 : ℝ) ≤ Real.pi := by linarith [Real.pi_gt_three]
  have hlt : Real.cos 0.35 < Real.cos (0.35 * 0.7) :=
    Real.cos_lt_cos_of_nonneg_of_le_pi (by norm_num) hpi (by norm_num)
  have hpos : 0 ≤ Real.cos 0.35 :=
    Real.cos_nonneg_of_mem_Icc ⟨by linarith [Real.pi_gt_three], by linarith [Real.pi_gt_three]⟩
  have hsq : Real.cos 0.35 ^ 2 < Real.cos (0.35 * 0.7) ^ 2 := by nlinarith
  have hone := Real.sin_sq_add_cos_sq (0.35 : ℝ)
  have ex : (-15 + Real.cos (0.35 * 0.7) * 2 * 0.5 - -15) / (2 / 2) = Real.cos (0.35 * 0.7) := by
    ring
  have ey : (10 + Real.sin 0.35 * 2 - 10) / 2 = Real.sin 0.35 := by ring
  rw [ex, ey]
  linarith

/-- C24 as amended: every glow orb moves on a Lissajous curve around its
original position, not on an ellipse: for a nonzero `floatRange`,
`(x - anchorX) / (floatRange / 2) = cos(0.7 * time * floatSpeed)` and
`(y - anchorY) / floatRange = sin(time * floatSpeed)`, two different phases, so
the sum of their squares is `cos²(0.7 time floatSpeed) + sin²(time floatSpeed)`
and each square is at most 1 (the orb stays in the box around the anchor). -/
theorem orb_lissajous (orb : Orb) (t : ℝ) (h : orb.userData.floatRange ≠ 0) :
    ((animateOrb t orb).position.x - orb.userData.originalPos.x)
          / (orb.userData.floatRange / 2)
        = Real.cos (0.7 * t * orb.userData.floatSpeed)
      ∧ ((animateOrb t orb).position.y - orb.userData.originalPos.y) / orb.userData.floatRange
        = Real.sin (t * orb.userData.floatSpeed)
      ∧ (((animateOrb t orb).position.x - orb.userData.originalPos.x)
            / (orb.userData.floatRange / 2)) ^ 2
          + (((animateOrb t orb).position.y - orb.userData.originalPos.y)
            / orb.userData.floatRange) ^ 2
        = Real.cos (0.7 * t * orb.userData.floatSpeed) ^ 2
          + Real.sin (t * orb.userData.floatSpeed) ^ 2
      ∧ (((animateOrb t orb).position.x - orb.userData.originalPos.x)
            / (orb.userData.floatRange / 2)) ^ 2 ≤ 1
      ∧ (((animateOrb t orb).position.y - orb.userData.originalPos.y)
            / orb.userData.floatRange) ^ 2 ≤ 1 := by
  have ex : ((animateOrb t orb).position.x - orb.userData.originalPos.x)
        / (orb.userData.floatRange / 2)
      = Real.cos (0.7 * t * orb.userData.floatSpeed) := by
    simp only [animateOrb]
    rw [show t * orb.userData.floatSpeed * 0.7 = 0.7 * t * orb.userData.floatSpeed by ring]
    field_simp
    ring
  have ey : ((animateOrb t orb).position.y - orb.userData.originalPos.y)
        / orb.userData.floatRange
      = Real.sin (t * orb.userData.floatSpeed) := by
    simp only [animateOrb]
    field_simp
  refine ⟨ex, ey, by rw [ex, ey], ?_, ?_⟩
  · rw [ex]
    have := Real.sin_sq_add_cos_sq (0.7 * t * orb.userData.floatSpeed)
    nlinarith [sq_nonneg (Real.sin (0.7 * t * orb.userData.floatSpeed))]
  · rw [ey]
    have := Real.sin_sq_add_cos_sq (t * orb.userData.floatSpeed)
    nlinarith [sq_nonneg (Real.cos (t * orb.userData.floatSpeed))]

theorem orb_lissajous_witness :
    ((animateOrb 1 (mkOrb (fun _ => 1 / 2) 0 ⟨⟨-15, 10, -5⟩, 0x00D4FF, 3⟩)).position.y
          - (mkOrb (fun _ => 1 / 2) 0 ⟨⟨-15, 10, -5⟩, 0x00D4FF, 3⟩).userData.originalPos.y)
        / (mkOrb (fun _ => 1 / 2) 0 ⟨⟨-15, 10, -5⟩, 0x00D4FF, 3⟩).userData.floatRange
      = Real.sin (1 * (mkOrb (fun _ => 1 / 2) 0 ⟨⟨-15, 10, -5⟩, 0x00D4FF, 3⟩).userData.floatSpeed) :=
  (orb_lissajous (mkOrb (fun _ => 1 / 2) 0 ⟨⟨-15, 10, -5⟩, 0x00D4FF, 3⟩) 1
    (by norm_num [mkOrb])).2.1

/-! ### Spawned attributes -/

theorem mem_spawnShapes (rand : ℕ → ℝ) (kind : GeometryKind) (count n : ℕ) (shape : Shape)
    (h : shape ∈ spawnShapes rand kind count n) : ∃ k, shape = mkShape rand k kind := by
  induction count generalizing n with
  | zero => exact absurd h (List.not_mem_nil _)
  | succ c ih =>
    rw [spawnShapes, List.mem_cons] at h
    rcases h with h | h
    · exact ⟨n, h⟩
    · exact ih _ h

theorem length_spawnShapes (rand : ℕ → ℝ) (kind : GeometryKind) (count n : ℕ) :
    (spawnShapes rand kind count n).length = count := by
  induction count generalizing n with
  | zero => rfl
  | succ c ih => rw [spawnShapes, List.length_cons, ih]

theorem spawnShapes_kind (rand : ℕ → ℝ) (kind : GeometryKind) (count n : ℕ) :
    ∀ shape ∈ spawnShapes rand kind count n, shape.kind = kind := by
  intro shape h
  obtain ⟨k, rfl⟩ := mem_spawnShapes rand kind count n shape h
  rfl

theorem mkShape_ranges (rand : ℕ → ℝ) (hr : ∀ k, 0 ≤ rand k ∧ rand k < 1) (n : ℕ)
    (kind : GeometryKind) :
    (-0.005 ≤ (mkShape rand n kind).userData.rotationSpeed.x
        ∧ (mkShape rand n kind).userData.rotationSpeed.x ≤ 0.005)
      ∧ (-0.005 ≤ (mkShape rand n kind).userData.rotationSpeed.y
        ∧ (mkShape rand n kind).userData.rotationSpeed.y ≤ 0.005)
      ∧ (-0.005 ≤ (mkShape rand n kind).userData.rotationSpeed.z
        ∧ (mkShape rand n kind).userData.rotationSpeed.z ≤ 0.005)
      ∧ (0.5 ≤ (mkShape rand n kind).userData.parallaxFactor
        ∧ (mkShape rand n kind).userData.parallaxFactor ≤ 1) := by
  have h7 := hr (n + 7)
  have h8 := hr (n + 8)
  have h9 := hr (n + 9)
  have h12 := hr (n + 12)
  simp only [mkShape]
  refine ⟨⟨?_, ?_⟩, ⟨?_, ?_⟩, ⟨?_, ?_⟩, ⟨?_, ?_⟩⟩ <;> linarith [h7.1, h7.2, h8.1, h8.2, h9.1, h9.2, h12.1, h12.2]

/-- C26: when every draw of the random source lies in `[0, 1)`, the spawned
attributes lie in their ranges: each ornament's per-axis rotation speed is in
`[-0.005, 0.005]` and its parallax factor in `[0.5, 1]`; each glow orb's
`floatSpeed` is in `[0.2, 0.5]` and its `floatRange` in `[1, 3]`; exactly one
orb is created per anchor (3 orbs) and exactly the requested count per geometry
kind (5 icosahedra, 4 octahedra, 6 tetrahedra, 15 ornaments). -/
theorem spawn_ranges (rand : ℕ → ℝ) (n : ℕ) (hr : ∀ k, 0 ≤ rand k ∧ rand k < 1) :
    (∀ shape ∈ createFloatingShapes rand n,
        (-0.005 ≤ shape.userData.rotationSpeed.x ∧ shape.userData.rotationSpeed.x ≤ 0.005)
          ∧ (-0.005 ≤ shape.userData.rotationSpeed.y ∧ shape.userData.rotationSpeed.y ≤ 0.005)
          ∧ (-0.005 ≤ shape.userData.rotationSpeed.z ∧ shape.userData.rotationSpeed.z ≤ 0.005)
          ∧ (0.5 ≤ shape.userData.parallaxFactor ∧ shape.userData.parallaxFactor ≤ 1))
      ∧ (∀ orb ∈ createGlowOrbs rand n,
          (0.2 ≤ orb.userData.floatSpeed ∧ orb.userData.floatSpeed ≤ 0.5)
            ∧ (1 ≤ orb.userData.floatRange ∧ orb.userData.floatRange ≤ 3))
      ∧ (createGlowOrbs rand n).length = 3
      ∧ (createGlowOrbs rand n).length = orbPositions.length
      ∧ (createGlowOrbs rand n).map (fun orb => orb.userData.originalPos)
          = orbPositions.map (fun o => o.pos)
      ∧ (createFloatingShapes rand n).length = 15
      ∧ ((createFloatingShapes rand n).filter
          (fun shape => shape.kind = GeometryKind.icosahedron)).length = 5
      ∧ ((createFloatingShapes rand n).filter
          (fun shape => shape.kind = GeometryKind.octahedron)).length = 4
      ∧ ((createFloatingShapes rand n).filter
          (fun shape => shape.kind = GeometryKind.tetrahedron)).length = 6 := by
  have hfilter : ∀ (kind kind' : GeometryKind) (count m : ℕ),
      ((spawnShapes rand kind count m).filter (fun shape => shape.kind = kind')).length
        = if kind = kind' then count else 0 := by
    intro kind kind' count m
    by_cases hk : kind = kind'
    · rw [if_pos hk, List.filter_eq_self.mpr, length_spawnShapes]
      intro shape hs
      simp [spawnShapes_kind rand kind count m shape hs, hk]
    · rw [if_neg hk, List.filter_eq_nil_iff.mpr]
      · rfl
      · intro shape hs
        simp [spawnShapes_kind rand kind count m shape hs, hk]
  refine ⟨?_, ?_, rfl, rfl, rfl, ?_, ?_, ?_, ?_⟩
  · intro shape hmem
    unfold createFloatingShapes at hmem
    rw [List.mem_append, List.mem_append] at hmem
    rcases hmem with (h | h) | h
    · obtain ⟨k, rfl⟩ := mem_spawnShapes _ _ _ _ _ h
      exact mkShape_ranges rand hr k _
    · obtain ⟨k, rfl⟩ := mem_spawnShapes _ _ _ _ _ h
      exact mkShape_ranges rand hr k _
    · obtain ⟨k, rfl⟩ := mem_spawnShapes _ _ _ _ _ h
      exact mkShape_ranges rand hr k _
  · intro orb hmem
    obtain ⟨k, o, rfl⟩ := mem_spawnOrbs rand orbPositions n orb hmem
    exact ⟨mkOrb_floatSpeed rand hr k o, mkOrb_floatRange rand hr k o⟩
  · unfold createFloatingShapes
    rw [List.length_append, List.length_append, length_spawnShapes, length_spawnShapes,
      length_spawnShapes]
  · unfold createFloatingShapes
    rw [List.filter_append, List.filter_append, List.length_append, List.length_append,
      hfilter, hfilter, hfilter]
    simp
  · unfold createFloatingShapes
    rw [List.filter_append, List.filter_append, List.length_append, List.length_append,
      hfilter, hfilter, hfilter]
    simp
  · unfold createFloatingShapes
    rw [List.filter_append, List.filter_append, List.length_append, List.length_append,
      hfilter, hfilter, hfilter]
    simp

theorem spawn_ranges_witness :
    (createFloatingShapes (fun _ => 1 / 2) 12000).length = 15
      ∧ (createGlowOrbs (fun _ => 1 / 2) 12195).length = 3 :=
  ⟨(spawn_ranges (fun _ => 1 / 2) 12000 (fun _ => ⟨by norm_num, by norm_num⟩)).2.2.2.2.2.1,
   (spawn_ranges (fun _ => 1 / 2) 12195 (fun _ => ⟨by norm_num, by norm_num⟩)).2.2.1⟩

/-! ### Drift and rotation -/

theorem animate_shape_x (s : State) :
    (animate s).floatingShapes.map (fun shape => shape.position.x)
      = s.floatingShapes.map (fun shape => shape.position.x + (animate s).mouse.x * 0.01) := by
  rw [animate_floatingShapes, List.map_map]
  rfl

theorem ticks_shape_x (n : ℕ) (s : State) :
    (ticks n s).floatingShapes.map (fun shape => shape.position.x)
      = s.floatingShapes.map (fun shape => shape.position.x
          + 0.01 * Finset.sum (Finset.range n) (fun k => (ticks (k + 1) s).mouse.x)) := by
  induction n with
  | zero => simp [ticks]
  | succ n ih =>
    have e : ticks (n + 1) s = animate (ticks n s) := rfl
    have hm : (fun shape : Shape => shape.position.x + (animate (ticks n s)).mouse.x * 0.01)
        = (fun x : ℝ => x + (animate (ticks n s)).mouse.x * 0.01)
            ∘ (fun shape : Shape => shape.position.x) := rfl
    rw [e, animate_shape_x, hm, ← List.map_map, ih, List.map_map, Finset.sum_range_succ]
    apply List.map_congr_left
    intro shape _
    simp only [Function.comp]
    rw [← e]
    ring

theorem ticks_mouse_const (n : ℕ) (s : State) (p : ℝ) (hx : s.mouse.x = p)
    (ht : s.mouse.targetX = p) : (ticks n s).mouse.x = p := by
  have h := (ticks_mouse n s).2.2.1
  rw [hx, ht, sub_self, mul_zero] at h
  linarith

/-- C22: the horizontal drift of the ornaments accumulates without decay: after
`n` ticks each ornament's `x` is its initial `x` plus 0.01 times the sum of the
smoothed pointer `x` values of those `n` ticks; with the smoothed pointer `x`
at rest at a constant `p` this is `x_0 + 0.01 * n * p`, which for `p ≠ 0`
exceeds any bound for `n` large enough. -/
theorem ornament_drift (s : State) (n : ℕ) :
    (ticks n s).floatingShapes.map (fun shape => shape.position.x)
        = s.floatingShapes.map (fun shape => shape.position.x
            + 0.01 * Finset.sum (Finset.range n) (fun k => (ticks (k + 1) s).mouse.x))
      ∧ (∀ p : ℝ, s.mouse.x = p → s.mouse.targetX = p →
          (ticks n s).floatingShapes.map (fun shape => shape.position.x)
            = s.floatingShapes.map (fun shape => shape.position.x + 0.01 * n * p))
      ∧ (∀ p : ℝ, p ≠ 0 → s.mouse.x = p → s.mouse.targetX = p →
          ∀ (i : ℕ) (shape : Shape), s.floatingShapes[i]? = some shape →
            ∀ B : ℝ, ∃ (m : ℕ) (moved : Shape),
              (ticks m s).floatingShapes[i]? = some moved
                ∧ moved.position.x = shape.position.x + 0.01 * m * p
                ∧ B < |moved.position.x|) := by
  have hconst : ∀ (m : ℕ) (p : ℝ), s.mouse.x = p → s.mouse.targetX = p →
      (ticks m s).floatingShapes.map (fun shape => shape.position.x)
        = s.floatingShapes.map (fun shape => shape.position.x + 0.01 * m * p) := by
    intro m p hx ht
    rw [ticks_shape_x]
    apply List.map_congr_left
    intro shape _
    have hs : Finset.sum (Finset.range m) (fun k => (ticks (k + 1) s).mouse.x) = m * p := by
      rw [Finset.sum_congr rfl (fun k _ => ticks_mouse_const (k + 1) s p hx ht)]
      simp
    rw [hs]
    ring
  refine ⟨ticks_shape_x n s, hconst n, ?_⟩
  intro p hp hx ht i shape hi B
  have hbig : ∃ m : ℕ, B < |shape.position.x + 0.01 * m * p| := by
    generalize shape.position.x = x0
    have hp' : 0 < 0.01 * |p| := by
      have := abs_pos.mpr hp
      linarith
    obtain ⟨m, hm⟩ := exists_nat_gt ((B + |x0|) / (0.01 * |p|))
    refine ⟨m, ?_⟩
    rw [div_lt_iff₀ hp'] at hm
    have h1 : |0.01 * (m : ℝ) * p| = (m : ℝ) * (0.01 * |p|) := by
      rw [abs_mul, abs_mul, abs_of_nonneg (by norm_num : (0 : ℝ) ≤ 0.01),
        abs_of_nonneg (Nat.cast_nonneg m)]
      ring
    have h2 : |0.01 * (m : ℝ) * p| - |x0| ≤ |x0 + 0.01 * (m : ℝ) * p| := by
      have := abs_sub_abs_le_abs_sub (0.01 * (m : ℝ) * p) (-x0)
      rw [abs_neg, sub_neg_eq_add, add_comm] at this
      exact this
    linarith
  obtain ⟨m, hm⟩ := hbig
  have hg := congrArg (fun l : List ℝ => l[i]?) (hconst m p hx ht)
  simp only [List.getElem?_map, hi, Option.map_some'] at hg
  obtain ⟨moved, hmoved, hxm⟩ := Option.map_eq_some'.mp hg
  exact ⟨m, moved, hmoved, hxm, by rw [hxm]; exact hm⟩

theorem ornament_drift_witness :
    (ticks 3 { exampleScene with mouse := ⟨1 / 2, 0, 1 / 2, 0⟩ }).floatingShapes.map
        (fun shape => shape.position.x)
      = ({ exampleScene with mouse := ⟨1 / 2, 0, 1 / 2, 0⟩ } : State).floatingShapes.map
          (fun shape => shape.position.x + 0.01 * ((3 : ℕ) : ℝ) * (1 / 2)) :=
  (ornament_drift { exampleScene with mouse := ⟨1 / 2, 0, 1 / 2, 0⟩ } 3).2.1 (1 / 2) rfl rfl

theorem animate_rotation (s : State) :
    (animate s).particleSystem.rotation
      = ⟨(animate s).mouse.y * 0.2, s.particleSystem.rotation.y + 0.002,
          (animate s).mouse.x * 0.1⟩ := by
  have h := congrArg Animated.rotation (animated_animate s)
  rw [animate_mouse]
  exact h

theorem animate_uniforms (s : State) :
    (animate s).particleSystem.uniforms
      = { time := (animate s).time
          mouseX := (animate s).mouse.x
          mouseY := (animate s).mouse.y
          pixelRatio := s.particleSystem.uniforms.pixelRatio } := by
  have h := congrArg Animated.uniforms (animated_animate s)
  rw [animate_mouse, animate_time]
  exact h

theorem ticks_rotation_y (n : ℕ) (s : State) :
    (ticks n s).particleSystem.rotation.y = s.particleSystem.rotation.y + 0.002 * n := by
  induction n with
  | zero => simp [ticks]
  | succ n ih =>
    have e : ticks (n + 1) s = animate (ticks n s) := rfl
    rw [e, animate_rotation]
    dsimp only
    rw [ih]
    push_cast
    ring

/-- C27: within one tick the pointer is smoothed before it is consumed.  After
the `n`-th tick from the constructed state the field rotation is
`rotY = 0.002 * n`, and after every tick `rotX = 0.2 * py` and `rotZ = 0.1 * px`
where `(px, py)` is the smoothed pointer produced by that same tick's smoothing
step (the previous value moved 5% towards the target); the same `px` and `py`
go into the shader uniforms and the same `px` is the one added, times 0.01, to
every ornament's `x`. -/
theorem pointer_smoothed_before_use (s : State) (n : ℕ) :
    (animate s).mouse.x = s.mouse.x + (s.mouse.targetX - s.mouse.x) * 0.05
      ∧ (animate s).mouse.y = s.mouse.y + (s.mouse.targetY - s.mouse.y) * 0.05
      ∧ (animate s).particleSystem.rotation.x = 0.2 * (animate s).mouse.y
      ∧ (animate s).particleSystem.rotation.z = 0.1 * (animate s).mouse.x
      ∧ (animate s).particleSystem.rotation.y = s.particleSystem.rotation.y + 0.002
      ∧ (animate s).particleSystem.uniforms.mouseX = (animate s).mouse.x
      ∧ (animate s).particleSystem.uniforms.mouseY = (animate s).mouse.y
      ∧ (animate s).floatingShapes.map (fun shape => shape.position.x)
          = s.floatingShapes.map
              (fun shape => shape.position.x + (animate s).mouse.x * 0.01)
      ∧ (ticks n s).particleSystem.rotation.y = s.particleSystem.rotation.y + 0.002 * n
      ∧ (∀ (rand : ℕ → ℝ) (w : Window),
          (ticks n (constructed rand w)).particleSystem.rotation.y = 0.002 * n)
      ∧ (ticks (n + 1) s).particleSystem.rotation.x = 0.2 * (ticks (n + 1) s).mouse.y
      ∧ (ticks (n + 1) s).particleSystem.rotation.z = 0.1 * (ticks (n + 1) s).mouse.x := by
  have hm := animate_mouse s
  have hr := animate_rotation s
  have hu := animate_uniforms s
  have hr' := animate_rotation (ticks n s)
  have e : ticks (n + 1) s = animate (ticks n s) := rfl
  refine ⟨by rw [hm], by rw [hm], ?_, ?_, by rw [hr], by rw [hu], by rw [hu],
    animate_shape_x s, ticks_rotation_y n s, ?_, ?_, ?_⟩
  · rw [hr]; dsimp only; ring
  · rw [hr]; dsimp only; ring
  · intro rand w
    rw [ticks_rotation_y]
    simp only [constructed]
    ring
  · rw [e, hr']; dsimp only; ring
  · rw [e, hr']; dsimp only; ring

/-! ## The transform with the pointer at rest -/

theorem length_scale (v : Vec3) (c : ℝ) : (v.scale c).length = |c| * v.length := by
  unfold Vec3.length Vec3.scale
  dsimp only
  rw [show (v.x * c) ^ 2 + (v.y * c) ^ 2 + (v.z * c) ^ 2
      = c ^ 2 * (v.x ^ 2 + v.y ^ 2 + v.z ^ 2) by ring,
    Real.sqrt_mul (sq_nonneg c), Real.sqrt_sq_eq_abs]

theorem wave_bounds (pos : Vec3) (t : ℝ) : -0.5 ≤ wave pos t ∧ wave pos t ≤ 0.5 := by
  have h1 := Real.neg_one_le_sin (pos.x * 0.5 + t)
  have h2 := Real.sin_le_one (pos.x * 0.5 + t)
  have h3 := Real.neg_one_le_cos (pos.y * 0.5 + t)
  have h4 := Real.cos_le_one (pos.y * 0.5 + t)
  unfold wave
  constructor <;> nlinarith

theorem breath_bounds_aux (t : ℝ) : 0.7 ≤ breath t ∧ breath t ≤ 1.3 := by
  have h1 := Real.neg_one_le_sin (t * 0.5)
  have h2 := Real.sin_le_one (t * 0.5)
  unfold breath
  constructor <;> linarith

theorem shaderPos_rest (base : Vec3) (t : ℝ) (h : base.length ≠ 0) :
    shaderPos base t 0 0 = base.scale ((1 + wave base t / base.length) * breath t) := by
  simp only [shaderPos, mouseStep, mouseStepX, mouseStepY, waveStep, Vec3.add, Vec3.scale,
    Vec3.normalize, zero_mul, add_zero, Vec3.mk.injEq]
  refine ⟨?_, ?_, ?_⟩ <;> field_simp <;> ring

theorem smoothstep_strict (x : ℝ) (h5 : 5 < x) (h15 : x < 15) :
    0 < smoothstep 5 15 x ∧ smoothstep 5 15 x < 1 := by
  have ht0 : 0 < (x - 5) / (15 - 5) := by
    apply div_pos <;> linarith
  have ht1 : (x - 5) / (15 - 5) < 1 := by
    rw [div_lt_one (by norm_num)]
    linarith
  have hc : clamp ((x - 5) / (15 - 5)) 0 1 = (x - 5) / (15 - 5) := by
    unfold clamp
    rw [max_eq_left ht0.le, min_eq_left ht1.le]
  simp only [smoothstep, hc]
  generalize (x - 5) / (15 - 5) = u at ht0 ht1
  constructor
  · have : 0 < 3 - 2 * u := by linarith
    positivity
  · have h1 : 0 < (1 - u) ^ 2 * (1 + 2 * u) := by
      have : 0 < 1 - u := by linarith
      positivity
    nlinarith

/-- C28: with the smoothed pointer at `(0, 0)`, for every base position of norm
in `[8, 10]` (as every generated particle has) and every time `t`, the
transformed position is a positive scalar multiple of the base position, of
norm `(|base| + wave) * breath`, which lies in `[5.25, 13.65]`; hence the
particle's alpha is strictly between 0 and 1. -/
theorem rest_pointer_alpha (base : Vec3) (t : ℝ) (h8 : 8 ≤ base.length)
    (h10 : base.length ≤ 10) :
    shaderPos base t 0 0 = base.scale ((1 + wave base t / base.length) * breath t)
      ∧ 0 < (1 + wave base t / base.length) * breath t
      ∧ (shaderPos base t 0 0).length = (base.length + wave base t) * breath t
      ∧ 5.25 ≤ (shaderPos base t 0 0).length
      ∧ (shaderPos base t 0 0).length ≤ 13.65
      ∧ 0 < vAlpha base t 0 0
      ∧ vAlpha base t 0 0 < 1
      ∧ (∀ (i : ℕ) (u : ℝ), 0 ≤ u → u < 1 →
          8 ≤ (particlePosition i u).length ∧ (particlePosition i u).length ≤ 10) := by
  have hL : 0 < base.length := by linarith
  have hw := wave_bounds base t
  have hb := breath_bounds_aux t
  have hq : 1 + wave base t / base.length = (base.length + wave base t) / base.length := by
    field_simp
  have hnum : 0 < base.length + wave base t := by linarith [hw.1]
  have hc : 0 < (1 + wave base t / base.length) * breath t := by
    rw [hq]
    exact mul_pos (div_pos hnum hL) (by linarith [hb.1])
  have hpos := shaderPos_rest base t (ne_of_gt hL)
  have hlen : (shaderPos base t 0 0).length = (base.length + wave base t) * breath t := by
    rw [hpos, length_scale, abs_of_pos hc, hq]
    field_simp
  have hlo : 5.25 ≤ (shaderPos base t 0 0).length := by
    rw [hlen]
    nlinarith [hw.1, hb.1]
  have hhi : (shaderPos base t 0 0).length ≤ 13.65 := by
    rw [hlen]
    nlinarith [hw.2, hb.2, hw.1, hb.1]
  have hs := smoothstep_strict (shaderPos base t 0 0).length (by linarith) (by linarith)
  refine ⟨hpos, hc, hlen, hlo, hhi, ?_, ?_, ?_⟩
  · simp only [vAlpha, alphaOf]
    linarith [hs.2]
  · simp only [vAlpha, alphaOf]
    linarith [hs.1]
  · intro i u h0 h1
    rw [length_particlePosition i u h0]
    constructor <;> linarith

theorem rest_pointer_alpha_witness :
    0 < vAlpha ⟨0, 0, -9⟩ 2 0 0 ∧ vAlpha ⟨0, 0, -9⟩ 2 0 0 < 1 :=
  ⟨(rest_pointer_alpha ⟨0, 0, -9⟩ 2 (by rw [length_0_0_neg9]; norm_num)
      (by rw [length_0_0_neg9]; norm_num)).2.2.2.2.2.1,
   (rest_pointer_alpha ⟨0, 0, -9⟩ 2 (by rw [length_0_0_neg9]; norm_num)
      (by rw [length_0_0_neg9]; norm_num)).2.2.2.2.2.2.1⟩

/-! ## The range of the smoothed pointer -/

theorem handle_mouse_xy (s : State) (e : Window × Event) :
    (handle s e).mouse.x = s.mouse.x ∧ (handle s e).mouse.y = s.mouse.y := by
  obtain ⟨w, ev⟩ := e
  cases ev with
  | mousemove x y => exact ⟨rfl, rfl⟩
  | touchmove touches => cases touches <;> exact ⟨rfl, rfl⟩
  | resize => exact ⟨rfl, rfl⟩
  | scroll => exact ⟨rfl, rfl⟩

theorem foldl_handle_mouse_xy (events : List (Window × Event)) (s : State) :
    (events.foldl handle s).mouse.x = s.mouse.x
      ∧ (events.foldl handle s).mouse.y = s.mouse.y := by
  induction events generalizing s with
  | nil => exact ⟨rfl, rfl⟩
  | cons e rest ih =>
    rw [List.foldl_cons]
    obtain ⟨h1, h2⟩ := ih (handle s e)
    obtain ⟨h3, h4⟩ := handle_mouse_xy s e
    exact ⟨h1.trans h3, h2.trans h4⟩

theorem frame_mouse (s : State) (events : List (Window × Event)) :
    (frame s events).mouse.x
        = 0.95 * s.mouse.x + 0.05 * (events.foldl handle s).mouse.targetX
      ∧ (frame s events).mouse.y
        = 0.95 * s.mouse.y + 0.05 * (events.foldl handle s).mouse.targetY := by
  obtain ⟨hx, hy⟩ := foldl_handle_mouse_xy events s
  unfold frame
  rw [animate_mouse]
  dsimp only
  rw [hx, hy]
  constructor <;> ring

theorem run_mouse_in_range (inputs : List (List (Window × Event))) (s : State)
    (hx : -1 ≤ s.mouse.x ∧ s.mouse.x ≤ 1) (hy : -1 ≤ s.mouse.y ∧ s.mouse.y ≤ 1)
    (ht : ∀ p ∈ targetsSeen s inputs, (-1 ≤ p.1 ∧ p.1 ≤ 1) ∧ (-1 ≤ p.2 ∧ p.2 ≤ 1)) :
    (-1 ≤ (run s inputs).mouse.x ∧ (run s inputs).mouse.x ≤ 1)
      ∧ (-1 ≤ (run s inputs).mouse.y ∧ (run s inputs).mouse.y ≤ 1) := by
  induction inputs generalizing s with
  | nil => exact ⟨hx, hy⟩
  | cons events rest ih =>
    have h0 := ht _ (List.mem_cons_self _ _)
    obtain ⟨fx, fy⟩ := frame_mouse s events
    dsimp only at h0
    apply ih (frame s events)
    · rw [fx]
      constructor <;> linarith [hx.1, hx.2, h0.1.1, h0.1.2]
    · rw [fy]
      constructor <;> linarith [hy.1, hy.2, h0.2.1, h0.2.2]
    · intro p hp
      exact ht p (List.mem_cons_of_mem _ hp)

/-- C29: the smoothed pointer never leaves the input range.  Each tick yields
the convex combination `0.95 * smoothed + 0.05 * raw`; so, starting from a
smoothed pointer in `[-1, 1]` on both axes (it is `(0, 0)` after construction),
if every raw pointer target the frame callbacks have seen has both coordinates
in `[-1, 1]`, then after any number of ticks both smoothed coordinates are in
`[-1, 1]`. -/
theorem smoothed_pointer_in_range (s : State) (inputs : List (List (Window × Event)))
    (hx : -1 ≤ s.mouse.x ∧ s.mouse.x ≤ 1) (hy : -1 ≤ s.mouse.y ∧ s.mouse.y ≤ 1)
    (ht : ∀ p ∈ targetsSeen s inputs, (-1 ≤ p.1 ∧ p.1 ≤ 1) ∧ (-1 ≤ p.2 ∧ p.2 ≤ 1)) :
    (-1 ≤ (run s inputs).mouse.x ∧ (run s inputs).mouse.x ≤ 1)
      ∧ (-1 ≤ (run s inputs).mouse.y ∧ (run s inputs).mouse.y ≤ 1)
      ∧ (∀ k : ℕ,
          (-1 ≤ (run s (inputs.take k)).mouse.x ∧ (run s (inputs.take k)).mouse.x ≤ 1)
            ∧ (-1 ≤ (run s (inputs.take k)).mouse.y ∧ (run s (inputs.take k)).mouse.y ≤ 1))
      ∧ (∀ (t : State) (events : List (Window × Event)),
          (frame t events).mouse.x
              = 0.95 * t.mouse.x + 0.05 * (events.foldl handle t).mouse.targetX
            ∧ (frame t events).mouse.y
              = 0.95 * t.mouse.y + 0.05 * (events.foldl handle t).mouse.targetY)
      ∧ (∀ (rand : ℕ → ℝ) (w : Window),
          (constructed rand w).mouse.x = 0 ∧ (constructed rand w).mouse.y = 0) := by
  have htake : ∀ (l : List (List (Window × Event))) (t : State) (k : ℕ),
      ∀ p ∈ targetsSeen t (l.take k), p ∈ targetsSeen t l := by
    intro l
    induction l with
    | nil =>
      intro t k p hp
      simpa using hp
    | cons events rest ih =>
      intro t k p hp
      cases k with
      | zero => exact absurd hp (by simp [targetsSeen])
      | succ k =>
        rw [List.take_succ_cons, targetsSeen, List.mem_cons] at hp
        rw [targetsSeen, List.mem_cons]
        rcases hp with hp | hp
        · exact Or.inl hp
        · exact Or.inr (ih _ k p hp)
  obtain ⟨h1, h2⟩ := run_mouse_in_range inputs s hx hy ht
  refine ⟨h1, h2, ?_, frame_mouse, fun rand w => ⟨rfl, rfl⟩⟩
  intro k
  exact run_mouse_in_range (inputs.take k) s hx hy
    (fun p hp => ht p (htake inputs s k p hp))

theorem smoothed_pointer_in_range_witness :
    (-1 ≤ (run (constructed (fun _ => 1 / 2) exampleWindow)
              [[(exampleWindow, Event.mousemove 1920 0)]]).mouse.x
        ∧ (run (constructed (fun _ => 1 / 2) exampleWindow)
              [[(exampleWindow, Event.mousemove 1920 0)]]).mouse.x ≤ 1)
      ∧ (-1 ≤ (run (constructed (fun _ => 1 / 2) exampleWindow)
              [[(exampleWindow, Event.mousemove 1920 0)]]).mouse.y
        ∧ (run (constructed (fun _ => 1 / 2) exampleWindow)
              [[(exampleWindow, Event.mousemove 1920 0)]]).mouse.y ≤ 1) :=
  ⟨(smoothed_pointer_in_range (constructed (fun _ => 1 / 2) exampleWindow)
      [[(exampleWindow, Event.mousemove 1920 0)]]
      (by norm_num [constructed]) (by norm_num [constructed])
      (by
        intro p hp
        simp only [targetsSeen, List.mem_singleton, List.foldl_cons, List.foldl_nil, handle,
          onMouseMove, exampleWindow] at hp
        rw [hp]
        norm_num)).1,
   (smoothed_pointer_in_range (constructed (fun _ => 1 / 2) exampleWindow)
      [[(exampleWindow, Event.mousemove 1920 0)]]
      (by norm_num [constructed]) (by norm_num [constructed])
      (by
        intro p hp
        simp only [targetsSeen, List.mem_singleton, List.foldl_cons, List.foldl_nil, handle,
          onMouseMove, exampleWindow] at hp
        rw [hp]
        norm_num)).2.1⟩

/-! ## The heights of the generated particles -/

theorem cos_phi (i : ℕ) (h : i ≤ particleCount) :
    Real.cos (phi i) = -1 + 2 * (i : ℝ) / (particleCount : ℝ) := by
  obtain ⟨h1, h2⟩ := phi_arg_mem i h
  unfold phi
  exact Real.cos_arccos h1 h2

theorem particlePosition_zero (u : ℝ) : particlePosition 0 u = ⟨0, 0, -(8 + 2 * u)⟩ := by
  have p0 : phi 0 = Real.pi := by
    simp [phi, Real.arccos_neg_one]
  simp only [particlePosition, particleRadius, p0, Real.sin_pi, Real.cos_pi, mul_zero,
    Vec3.mk.injEq, true_and]
  ring

/-- C30: for every index `i < particleCount` and jitter draw `u`, the generated
particle's `z` coordinate is `r * (-1 + 2i/count)` with `r = 8 + 2u`: the unit
directions' `z` components `-1 + 2i/count` are equally spaced by `2/count` and
strictly increasing in `i`, particle 0 sits exactly on the pole `(0, 0, -r)`,
and no particle reaches the opposite pole, the largest `z/r` being
`1 - 2/count`, at the last index. -/
theorem particle_heights (i : ℕ) (u : ℝ) (hi : i < particleCount) :
    (particlePosition i u).z = (8 + 2 * u) * (-1 + 2 * (i : ℝ) / (particleCount : ℝ))
      ∧ Real.cos (phi i) = -1 + 2 * (i : ℝ) / (particleCount : ℝ)
      ∧ (i + 1 < particleCount →
          Real.cos (phi (i + 1)) - Real.cos (phi i) = 2 / (particleCount : ℝ)
            ∧ Real.cos (phi i) < Real.cos (phi (i + 1)))
      ∧ (∀ j : ℕ, j < particleCount → i < j → Real.cos (phi i) < Real.cos (phi j))
      ∧ particlePosition 0 u = ⟨0, 0, -(8 + 2 * u)⟩
      ∧ Real.cos (phi i) ≤ 1 - 2 / (particleCount : ℝ)
      ∧ Real.cos (phi i) < 1
      ∧ Real.cos (phi (particleCount - 1)) = 1 - 2 / (particleCount : ℝ)
      ∧ (0 ≤ u → (particlePosition i u).z / (8 + 2 * u)
          = -1 + 2 * (i : ℝ) / (particleCount : ℝ)) := by
  have hc := cos_phi i (le_of_lt hi)
  have hN : (0 : ℝ) < (particleCount : ℝ) := by simp [particleCount]
  have hz : (particlePosition i u).z
      = (8 + 2 * u) * (-1 + 2 * (i : ℝ) / (particleCount : ℝ)) := by
    simp only [particlePosition, particleRadius]
    rw [hc]
    ring
  have hile : (i : ℝ) + 1 ≤ (particleCount : ℝ) := by exact_mod_cast hi
  have hmax : Real.cos (phi i) ≤ 1 - 2 / (particleCount : ℝ) := by
    have hsum : 2 * (i : ℝ) / (particleCount : ℝ) + 2 / (particleCount : ℝ) ≤ 2 := by
      rw [← add_div, div_le_iff₀ hN]
      linarith
    rw [hc]
    linarith
  have h2N : 0 < 2 / (particleCount : ℝ) := by positivity
  refine ⟨hz, hc, ?_, ?_, particlePosition_zero u, hmax, by linarith, ?_, ?_⟩
  · intro hi1
    have hc1 := cos_phi (i + 1) (le_of_lt hi1)
    have e : Real.cos (phi (i + 1)) - Real.cos (phi i) = 2 / (particleCount : ℝ) := by
      rw [hc1, hc]
      push_cast
      ring
    exact ⟨e, by linarith⟩
  · intro j hj hij
    rw [hc, cos_phi j (le_of_lt hj)]
    have hij' : (i : ℝ) < (j : ℝ) := by exact_mod_cast hij
    have : 2 * (i : ℝ) / (particleCount : ℝ) < 2 * (j : ℝ) / (particleCount : ℝ) := by
      apply div_lt_div_of_pos_right _ hN
      linarith
    linarith
  · rw [cos_phi (particleCount - 1) (Nat.sub_le _ _)]
    norm_num [particleCount]
  · intro hu
    have hr : (8 + 2 * u) ≠ 0 := ne_of_gt (by linarith)
    rw [hz, mul_div_cancel_left₀ _ hr]

theorem particle_heights_witness :
    (particlePosition 7 (1 / 2)).z
      = (8 + 2 * (1 / 2)) * (-1 + 2 * ((7 : ℕ) : ℝ) / (particleCount : ℝ)) :=
  (particle_heights 7 (1 / 2) (by decide)).1

end Hero3D
